import Mathlib

/-!
Verification development for the ReviewbyGPT response-extraction engine.

The definitions below are a shallow embedding of the Python sources
`reviewbygpt/lib/review_data_parser.py`,
`reviewbygpt/scripts/process_pasted_response.py` and
`reviewbygpt/scripts/pdf_to_excel.py`.

Modelling conventions:
* Python strings are modelled as `List Char` (`Str`); `S` converts a Lean
  string literal.
* Python floats are modelled as exact rationals `ℚ`.  All comparisons the
  classified claims depend on (equality with 0, `<` against the cutoff) are
  exact on the decimal literals that occur, so no binary rounding is modelled.
* Python dicts are modelled as association lists with insertion-order
  semantics (`PyDict`): inserting an existing key overwrites in place,
  inserting a new key appends.
* A Python exception that escapes a function is modelled with
  `Except String`; the string names the Python exception class.
* The regular-expression calls of the source are embedded as specialised
  scanners.  Each scanner's doc comment quotes the pattern it implements and
  the backtracking order (leftmost match, greedy/lazy as written) it realises.
-/

set_option allowUnsafeReducibility true
attribute [semireducible] Rat.add Rat.mul Rat.inv Rat.div Rat.sub Rat.neg Rat.ofScientific

deriving instance DecidableEq for Except

abbrev Str := List Char

def S (s : String) : Str := s.data

/-- ASCII whitespace recognised by Python's `\s` and `str.strip()` (the
inputs of interest are ASCII). -/
def isWs (c : Char) : Bool :=
  c = ' ' || c = '\t' || c = '\n' || c = '\r' || c = '\x0b' || c = '\x0c'

/-- `[A-Z]` character class. -/
def isUpperA (c : Char) : Bool := 'A' ≤ c && c ≤ 'Z'

/-- `[a-z]` character class. -/
def isLowerA (c : Char) : Bool := 'a' ≤ c && c ≤ 'z'

/-- `[A-Za-z]`, used for `[A-Z]` under `re.IGNORECASE`. -/
def isAlphaA (c : Char) : Bool := isUpperA c || isLowerA c

def isDigit10 (c : Char) : Bool := '0' ≤ c && c ≤ '9'

/-- `[0-9.]` character class of the score patterns. -/
def isScoreChar (c : Char) : Bool := isDigit10 c || c = '.'

/-- Python `str.lstrip()`. -/
def lstripL (s : Str) : Str := s.dropWhile isWs

/-- Python `str.strip()`. -/
def pyStrip (s : Str) : Str := ((lstripL s).reverse.dropWhile isWs).reverse

/-- Python `str.replace(c, "")`. -/
def removeChar (c : Char) (s : Str) : Str := s.filter (fun c2 => ¬ c2 = c)

/-- Python slice `s[a:b]` (with `0 ≤ a ≤ b` or the empty result). -/
def sliceL (s : Str) (a b : Nat) : Str := (s.drop a).take (b - a)

/-- Python slice `s[a:]`. -/
def sliceFrom (s : Str) (a : Nat) : Str := s.drop a

/-- Helper for `str.find`: index of the first occurrence of `pat` in `hay`,
relative to the start of `hay`. -/
def findSubAux (pat : Str) : Str → Nat → Option Nat
  | [], i => if pat.isEmpty then some i else none
  | hay@(_ :: t), i =>
    if pat.isPrefixOf hay then some i else findSubAux pat t (i + 1)

/-- Python `hay.find(pat, start)` (with `none` for `-1`). -/
def findSubFrom (hay pat : Str) (start : Nat) : Option Nat :=
  (findSubAux pat (hay.drop start) 0).map (fun i => i + start)

/-- Python `hay.find(pat)`. -/
def findSub (hay pat : Str) : Option Nat := findSubFrom hay pat 0

/-- Python `pat in hay`. -/
def containsSub (hay pat : Str) : Bool := (findSub hay pat).isSome

/-- Numeric value of a digit string. -/
def digitsVal (ds : Str) : ℕ :=
  ds.foldl (fun a c => a * 10 + (c.toNat - 48)) 0

/-- Python `float(s)` on the strings this code base can produce: optional
surrounding whitespace, optional sign, a decimal mantissa with at most one
dot and at least one digit, and an optional exponent part.  (`inf`, `nan`
and numeric underscores are not modelled; no extraction path can produce
them.)  The result is the exact rational value of the literal. -/
def pyFloat (s0 : Str) : Option ℚ :=
  let s := pyStrip s0
  let (sgn, s1) : ℚ × Str :=
    match s with
    | '+' :: t => (1, t)
    | '-' :: t => (-1, t)
    | _ => (1, s)
  let ip := s1.takeWhile isDigit10
  let s2 := s1.drop ip.length
  let (fp, s3) : Str × Str :=
    match s2 with
    | '.' :: t => (t.takeWhile isDigit10, t.drop (t.takeWhile isDigit10).length)
    | _ => ([], s2)
  if ip.isEmpty && fp.isEmpty then none
  else
    let mant : ℚ := (digitsVal ip : ℚ) + (digitsVal fp : ℚ) / ((10 : ℚ) ^ fp.length)
    match s3 with
    | [] => some (sgn * mant)
    | e :: t =>
      if e = 'e' || e = 'E' then
        let (esgn, t1) : Bool × Str :=
          match t with
          | '+' :: t2 => (true, t2)
          | '-' :: t2 => (false, t2)
          | _ => (true, t)
        let ed := t1.takeWhile isDigit10
        if ed.isEmpty || ¬ (t1.drop ed.length).isEmpty then none
        else
          let p : ℚ := (10 : ℚ) ^ digitsVal ed
          some (sgn * mant * (if esgn then p else p⁻¹))
      else none

/-- A Python value stored in one of the extraction maps: a string or a
number. -/
inductive PyVal where
  | s (v : Str)
  | q (v : ℚ)
deriving DecidableEq, Repr

/-- A Python dict with string keys, as an insertion-ordered association
list. -/
abbrev Dict (α : Type) := List (Str × α)

/-- The maps of string/number values that the extraction engine returns. -/
abbrev PyDict := Dict PyVal

namespace Dict

variable {α : Type}

/-- Python `d[k] = v`: overwrite in place if present, else append. -/
def insert : Dict α → Str → α → Dict α
  | [], k, v => [(k, v)]
  | (k', v') :: t, k, v =>
    if k' = k then (k, v) :: t else (k', v') :: insert t k v

/-- Python `d.get(k)` / `k in d` lookup. -/
def get? : Dict α → Str → Option α
  | [], _ => none
  | (k', v') :: t, k => if k' = k then some v' else get? t k

/-- Python `d.get(k, dflt)`. -/
def getD (d : Dict α) (k : Str) (dflt : α) : α :=
  (d.get? k).getD dflt

/-- Remove a key (helper for `pop`). -/
def eraseKey : Dict α → Str → Dict α
  | [], _ => []
  | (k', v') :: t, k => if k' = k then t else (k', v') :: eraseKey t k

/-- Python `d.pop(k, dflt)`: the removed (or default) value together with
the remaining dict. -/
def popD (d : Dict α) (k : Str) (dflt : α) : α × Dict α :=
  (d.getD k dflt, d.eraseKey k)

end Dict

/-!
## Quality-assessment extraction
(`ReviewDataParser.get_quality_assessment_text`, lines 136-233, and
`_legacy_get_quality_assessment_text`, lines 235-257.)
-/

/-- The value attached to a key of the intermediate `qa_data` dict: either
the per-item inner dict `{"<id>": description, "SCORE": score}` or a bare
value (`qa_data["TOTAL_SCORE"] = total_score`). -/
inductive QaObj where
  | dict (d : PyDict)
  | val (v : PyVal)
deriving DecidableEq, Repr

/-- The intermediate `qa_data` dict of the three extraction tiers. -/
abbrev QaDict := Dict QaObj

/-- Rendering used by `str(qa_info)` on line 128 of
`review_data_parser.py`.  In every reachable call the only non-dict entry
of `qa_data` is `"TOTAL_SCORE"`, whose flattened value is overwritten by
the final `flattened_data["TOTAL_SCORE"] = total_score` on line 132 before
the map escapes, so the exact text produced here is never observable; a
simple rendering is used. -/
def strOfVal : PyVal → Str
  | .s v => v
  | .q v => S (toString v.num ++ "/" ++ toString v.den)

/-- One step of the loop of `preprocess_qa_data` (lines 120-129). -/
def preprocessStep (f : PyDict) : Str × QaObj → PyDict
  | (k, .dict d) =>
    (f.insert k (d.getD k (.s []))).insert (k ++ S "_SCORE") (d.getD (S "SCORE") (.s []))
  | (k, .val v) =>
    (f.insert k (.s (strOfVal v))).insert (k ++ S "_SCORE") (.s [])

/-- `ReviewDataParser.preprocess_qa_data` (lines 117-134). -/
def preprocess_qa_data (qa : List (Str × QaObj)) (total : ℚ) : PyDict :=
  (qa.foldl preprocessStep []).insert (S "TOTAL_SCORE") (.q total)

/-- Match `QE\d+` at the head of the list: `QE`, then the maximal nonempty
digit run (greedy `\d+` followed by a non-digit literal cannot give back
characters).  Returns the captured identifier and the rest. -/
def qeId : Str → Option (Str × Str)
  | 'Q' :: 'E' :: t =>
    let ds := t.takeWhile isDigit10
    if ds.isEmpty then none else some ('Q' :: 'E' :: ds, t.drop ds.length)
  | _ => none

/-- Match `QE\d+:` at the head of the list. -/
def qeIdColon (cs : Str) : Option (Str × Str) :=
  match qeId cs with
  | some (id, ':' :: r) => some (id, r)
  | _ => none

/-- Tail of the tier-1 item pattern after the literal `<id>_SCORE:`
marker: `\s*([0-9.]+)`.  The inner `\s*` is greedy and cannot backtrack
usefully (a `[0-9.]` character is never whitespace), so the score capture
is the maximal nonempty `[0-9.]` run after the maximal whitespace run.
Returns the captured score text and the rest (the overall match ends at
the end of the greedy score run). -/
def scoreRunAfterWs (cs : Str) : Option (Str × Str) :=
  let a := cs.dropWhile isWs
  let run := a.takeWhile isScoreChar
  if run.isEmpty then none else some (run, a.drop run.length)

/-- The search for `(?:\s*|\n)<id>_SCORE:\s*([0-9.]+)` that closes a tier-1
item (pattern 1, line 159): the description group `(.*?)` is lazy, so the
engine tries description end positions `d` in ascending order; at each
`d` the `(?:\s*|\n)` group must cover exactly the whitespace up to the
marker (the marker starts with `Q`, which is not whitespace, so only the
maximal whitespace run can precede it), and after the marker
`\s*([0-9.]+)` must produce a nonempty score run, otherwise the engine
keeps growing the description.  Returns (description capture, score
capture, rest after the match). -/
def tier1CloseSearch (id : Str) : Str → Str → Option (Str × Str × Str)
  | descRev, cs =>
    let afterWs := cs.dropWhile isWs
    match
      (if (id ++ S "_SCORE:").isPrefixOf afterWs then
        scoreRunAfterWs (afterWs.drop (id.length + 7))
      else none) with
    | some (run, rest) => some (descRev.reverse, run, rest)
    | none =>
      match cs with
      | [] => none
      | c :: t => tier1CloseSearch id (c :: descRev) t

/-- One attempt of tier-1 pattern
`(QE\d+):\s*(.*?)(?:\s*|\n)\1_SCORE:\s*([0-9.]+)` (re.DOTALL) at the
current position.  After the identifier and colon the leading `\s*` is
greedy; because the lazy description group can absorb whitespace itself,
a match exists for the maximal whitespace prefix whenever it exists at
all, so the greedy choice is never backtracked and the captured
description starts right after the maximal whitespace run. -/
def tier1MatchAt (cs : Str) : Option (Str × Str × Str × Str) :=
  match qeIdColon cs with
  | none => none
  | some (id, r) =>
    match tier1CloseSearch id [] (r.dropWhile isWs) with
    | none => none
    | some (desc, run, rest) => some (id, desc, run, rest)

/-- `re.findall` of the tier-1 item pattern: leftmost matches, scanning
resumes after each (nonempty) match.  Fuel bounds the walk; it is called
with more fuel than there are characters. -/
def tier1Scan : Nat → Str → List (Str × Str × Str)
  | 0, _ => []
  | _, [] => []
  | fuel + 1, cs@(_ :: t) =>
    match tier1MatchAt cs with
    | some (id, desc, run, rest) => (id, desc, run) :: tier1Scan fuel rest
    | none => tier1Scan fuel t

/-- `re.findall(r'(QE\d+):', qa_content)` of tier 2 (line 167). -/
def tier2Ids : Nat → Str → List Str
  | 0, _ => []
  | _, [] => []
  | fuel + 1, cs@(_ :: t) =>
    match qeIdColon cs with
    | some (id, rest) => id :: tier2Ids fuel rest
    | none => tier2Ids fuel t

/-- Minimum of the found positions of the other identifiers
(`next_qe_start`, lines 177-182): `none` plays the role of `-1`. -/
def tier2NextStart (content : Str) (ids : List Str) (id : Str) (after : Nat) : Option Nat :=
  ids.foldl
    (fun acc nid =>
      if nid = id then acc
      else
        match findSubFrom content (nid ++ S ":") after, acc with
        | some p, some q => some (min p q)
        | some p, none => some p
        | none, a => a)
    none

/-- The tier-2 score text (lines 197-202): from immediately after the
`<id>_SCORE:` marker up to the next literal space character `' '` (or the
end of the block when no space follows), then `str.strip`ped. -/
def tier2ScoreText (content : Str) (scoreStart : Nat) : Str :=
  match findSubFrom content (S " ") scoreStart with
  | none => pyStrip (sliceFrom content scoreStart)
  | some e => pyStrip (sliceL content scoreStart e)

/-- The per-identifier work of the tier-2 loop (lines 170-213): locate the
identifier, its description span and its score text; `none` when the item
is skipped (`continue`) or its score text fails float parsing. -/
def tier2Item (content : Str) (ids : List Str) (id : Str) : Option (Str × ℚ) :=
  match findSub content (id ++ S ":") with
  | none => none
  | some qeStart =>
    let nextStart := tier2NextStart content ids id (qeStart + id.length + 1)
    match findSubFrom content (id ++ S "_SCORE:") qeStart with
    | none => none
    | some scorePos =>
      let descStart := qeStart + id.length + 1
      let descEnd :=
        match nextStart with
        | none => scorePos
        | some n => if scorePos < n then scorePos else n
      let desc := pyStrip (sliceL content descStart descEnd)
      let scoreText := tier2ScoreText content (scorePos + id.length + 7)
      match pyFloat scoreText with
      | none => none
      | some q => some (removeChar '"' desc, q)

/-- One iteration of the tier-2 `for qe_id in qe_ids` loop (lines
170-213): on success insert the inner dict and add the score to the
running total, on any failure (`continue` or a failed float conversion)
leave the accumulator unchanged. -/
def tier2Step (content : Str) (ids : List Str) (acc : QaDict × ℚ) (id : Str) : QaDict × ℚ :=
  match tier2Item content ids id with
  | none => acc
  | some (desc, q) =>
    (acc.1.insert id (.dict [(id, .s desc), (S "SCORE", .q q)]), acc.2 + q)

/-- One iteration of the tier-1 `for match in matches` loop (lines
216-227): items whose `[0-9.]+` capture fails `float` conversion are
skipped (`except (ValueError, TypeError)`). -/
def tier1Step (acc : QaDict × ℚ) (m : Str × Str × Str) : QaDict × ℚ :=
  match pyFloat m.2.2 with
  | none => acc
  | some q =>
    (acc.1.insert m.1 (.dict [(m.1, .s (removeChar '"' (pyStrip m.2.1))), (S "SCORE", .q q)]),
     acc.2 + q)

/-- The `(qa_data, total_score)` accumulator built inside
`get_quality_assessment_text` once the marked block has been found and
stripped (lines 154-227): tier 1 if it has matches, otherwise tier 2. -/
def markedQaAcc (content : Str) : QaDict × ℚ :=
  let ms := tier1Scan (content.length + 1) content
  let ids := tier2Ids (content.length + 1) content
  match ms with
  | [] => ids.foldl (tier2Step content ids) ([], 0)
  | _ => ms.foldl tier1Step ([], 0)

/-- Body of `get_quality_assessment_text` once the marked block has been
found and stripped (lines 154-233): the tier accumulator, then
`qa_data["TOTAL_SCORE"] = total_score` and the flattening pass. -/
def markedQa (content : Str) : PyDict :=
  preprocess_qa_data
    ((markedQaAcc content).1.insert (S "TOTAL_SCORE") (.val (.q (markedQaAcc content).2)))
    (markedQaAcc content).2

/-- The literal marker pair of the quality-assessment block. -/
def qaStartMarker : Str := S "==QUALITY_ASSESSMENT_START=="

def qaEndMarker : Str := S "==QUALITY_ASSESSMENT_END=="

/-- `re.search(r"A(.*?)B", s, re.DOTALL)` for literal `A`, `B`: the match
starts at the first occurrence of `A` that is followed (lazily) by an
occurrence of `B`; group 1 is the text between that occurrence of `A` and
the first following `B`.  If the first `A` has no following `B` then no
later one has either, so the search fails. -/
def extractBlock (sm em s : Str) : Option Str :=
  match findSub s sm with
  | none => none
  | some i =>
    let afterStart := s.drop (i + sm.length)
    match findSub afterStart em with
    | none => none
    | some j => some (afterStart.take j)

/-- Marker test of the legacy pattern (line 242): the alternation
`(?:QE\d+\s*Score|QE\d+Score|QE\d+_SCORE)` at the head of the list; the
alternatives are mutually exclusive (after the digit run either `_SCORE`
follows, or optional whitespace and then `Score`), so the attempt order
does not matter.  Returns the rest after the marker. -/
def legacyMarker (cs : Str) : Option Str :=
  match qeId cs with
  | none => none
  | some (_, r) =>
    if (S "_SCORE").isPrefixOf r then some (r.drop 6)
    else
      let a := r.dropWhile isWs
      if (S "Score").isPrefixOf a then some (a.drop 5) else none

/-- Tail `[:\.]?\s*([0-9.]+)` of the legacy pattern: the optional
punctuation character is consumed greedily, but if doing so leaves no
nonempty `[0-9.]` run the engine backtracks and retries without it. -/
def legacyScoreTail (cs : Str) : Option (Str × Str) :=
  match cs with
  | c :: t =>
    if c = ':' || c = '.' then
      match scoreRunAfterWs t with
      | some r => some r
      | none => scoreRunAfterWs cs
    else scoreRunAfterWs cs
  | [] => none

/-- Lazy search closing a legacy item: `(.*?)\s*(marker)[:\.]?\s*([0-9.]+)`
with the description group lazy; as in tier 1 only the maximal whitespace
run can separate the description from the marker (the marker starts with
`Q`). -/
def legacyCloseSearch : Str → Str → Option (Str × Str × Str)
  | descRev, cs =>
    let afterWs := cs.dropWhile isWs
    match
      (match legacyMarker afterWs with
       | some afterM => legacyScoreTail afterM
       | none => none) with
    | some (run, rest) => some (descRev.reverse, run, rest)
    | none =>
      match cs with
      | [] => none
      | c :: t => legacyCloseSearch (c :: descRev) t

/-- One attempt of the legacy pattern
`(QE\d+)[:\.]?\s*(.*?)\s*(?:QE\d+\s*Score|QE\d+Score|QE\d+_SCORE)[:\.]?\s*([0-9.]+)`
(re.DOTALL, line 242) at the current position.  The optional `[:\.]?`
after the identifier is consumed greedily; since the lazy description can
absorb the character instead, consuming it never loses a match, so it is
not backtracked.  The greedy `\s*` before the description behaves as in
tier 1. -/
def dropPunct (r0 : Str) : Str :=
  match r0 with
  | c :: t => if c = ':' || c = '.' then t else r0
  | [] => r0

def legacyMatchAt (cs : Str) : Option (Str × Str × Str × Str) :=
  match qeId cs with
  | none => none
  | some (id, r0) =>
    match legacyCloseSearch [] ((dropPunct r0).dropWhile isWs) with
    | none => none
    | some (desc, run, rest) => some (id, desc, run, rest)

/-- `re.findall` of the legacy pattern. -/
def legacyScan : Nat → Str → List (Str × Str × Str)
  | 0, _ => []
  | _, [] => []
  | fuel + 1, cs@(_ :: t) =>
    match legacyMatchAt cs with
    | some (id, desc, run, rest) => (id, desc, run) :: legacyScan fuel rest
    | none => legacyScan fuel t

/-- One iteration of the legacy loop (lines 245-252).  Line 247 calls
`float(score.strip())` without a `try`/`except`, so a captured score that
is not a valid float raises `ValueError` to the caller. -/
def legacyStep (acc : QaDict × ℚ) (m : Str × Str × Str) : Except String (QaDict × ℚ) :=
  match pyFloat (pyStrip m.2.2) with
  | none => Except.error "ValueError: could not convert string to float"
  | some q =>
    Except.ok
      (acc.1.insert m.1 (.dict [(m.1, .s (removeChar '"' (pyStrip m.2.1))), (S "SCORE", .q q)]),
       acc.2 + q)

/-- `ReviewDataParser._legacy_get_quality_assessment_text` (lines
235-257); a `ValueError` from a score conversion propagates and the
partially built dict is lost. -/
def legacyQa (s : Str) : Except String PyDict :=
  match (legacyScan (s.length + 1) s).foldlM legacyStep (([], 0) : QaDict × ℚ) with
  | .error e => .error e
  | .ok (qa, total) =>
    .ok (preprocess_qa_data (qa.insert (S "TOTAL_SCORE") (.val (.q total))) total)

/-- `ReviewDataParser.get_quality_assessment_text` (lines 136-233): use
the marked block when present, otherwise fall back to the legacy method
(whose exceptions propagate). -/
def get_quality_assessment_text (s : Str) : Except String PyDict :=
  match extractBlock qaStartMarker qaEndMarker s with
  | none => legacyQa s
  | some block => .ok (markedQa (pyStrip block))

/-!
## Data extraction
(`ReviewDataParser.get_data_extraction_text`, lines 259-359, and
`_legacy_get_data_extraction_text`, lines 361-429.)
-/

def deStartMarker : Str := S "==DATA_EXTRACTION_START=="

def deEndMarker : Str := S "==DATA_EXTRACTION_END=="

/-- `[A-Z\s]` character class of the field-key patterns. -/
def isKeyBody (c : Char) : Bool := isUpperA c || isWs c

/-- `\s*:` — greedy whitespace then the literal colon (whitespace is never
a colon, so the greedy run is never backtracked).  Returns the rest after
the colon. -/
def colonAfterWs (cs : Str) : Option Str :=
  match cs.dropWhile isWs with
  | ':' :: r => some r
  | _ => none

/-- The optional group `(?:\sOF\s[A-Z]+)?` of the field-key pattern
(line 282): one whitespace, `OF`, one whitespace, then a maximal nonempty
`[A-Z]` run (shorter runs cannot help: the character after a shorter run
is another `[A-Z]`, which can satisfy neither `\s*:` nor `:`).  Returns
the rest after the group. -/
def ofGroup (cs : Str) : Option Str :=
  match cs with
  | a :: 'O' :: 'F' :: b :: t =>
    if isWs a && isWs b then
      let r := t.takeWhile isUpperA
      if r.isEmpty then none else some (t.drop r.length)
    else none
  | _ => none

/-- Tail of the main field-key pattern after the `[A-Z][A-Z\s]+` body:
`(?:\sOF\s[A-Z]+)?\s*:`, trying the optional group first.  Returns the
number of extra characters the group adds to the capture together with
the rest after the colon. -/
def keyTailMain (rest : Str) : Option (Nat × Str) :=
  match ofGroup rest with
  | some r =>
    match colonAfterWs r with
    | some after => some (rest.length - r.length, after)
    | none => (colonAfterWs rest).map (fun after => (0, after))
  | none => (colonAfterWs rest).map (fun after => (0, after))

/-- Greedy descent over the `[A-Z\s]+` body length of the field-key
pattern `([A-Z][A-Z\s]+(?:\sOF\s[A-Z]+)?)\s*:`: the maximal run is tried
first and shortened on failure.  `c` is the leading `[A-Z]` character,
`t` the text after it.  Returns (captured key, rest after the colon). -/
def keyTryMain (c : Char) (t : Str) : Nat → Option (Str × Str)
  | 0 => none
  | n + 1 =>
    match keyTailMain (t.drop (n + 1)) with
    | some (extra, after) => some (c :: t.take (n + 1 + extra), after)
    | none => keyTryMain c t n

/-- Match the field-key pattern `([A-Z][A-Z\s]+(?:\sOF\s[A-Z]+)?)\s*:` at
the current position. -/
def keyAt : Str → Option (Str × Str)
  | c :: t =>
    if isUpperA c then keyTryMain c t (t.takeWhile isKeyBody).length else none
  | [] => none

/-- One length attempt of the lookahead key
`[A-Z][A-Z\s]+(?:\sOF\s[A-Z]+)?:` (no whitespace before the colon). -/
def lookKeyTry (t : Str) : Nat → Bool
  | 0 => false
  | n + 1 =>
    let rest := t.drop (n + 1)
    (match ofGroup rest with
     | some (':' :: _) => true
     | _ => false)
    || (match rest with
        | ':' :: _ => true
        | _ => false)
    || lookKeyTry t n

/-- The lookahead key test `(?=...[A-Z][A-Z\s]+(?:\sOF\s[A-Z]+)?:...)`. -/
def lookKeyAt : Str → Bool
  | c :: t => isUpperA c && lookKeyTry t (t.takeWhile isKeyBody).length
  | [] => false

/-- The lazy value group `(.*?)(?=\s+KEY:|$)` of the tier-1 field pattern
(line 282): value-end positions are tried in ascending order; the
lookahead fires at a position only if a nonempty whitespace run there is
followed directly by a key and colon (the key starts with `[A-Z]`, so
only the maximal whitespace run is a candidate), and `$` (no
`re.MULTILINE`) fires at the end of the stripped block.  Returns the
captured value and the suffix at the match end. -/
def deValueWalk : Str → Str → Str × Str
  | valRev, cs =>
    let r := (cs.takeWhile isWs).length
    if 1 ≤ r && lookKeyAt (cs.drop r) then (valRev.reverse, cs)
    else
      match cs with
      | [] => (valRev.reverse, [])
      | c :: t => deValueWalk (c :: valRev) t

/-- `re.findall` of the tier-1 field pattern (lines 282-283): at a match,
the leading `\s*` after the colon is greedy (the lazy value group can
reach `$`, so the greedy choice always completes and is never
backtracked), and scanning resumes at the zero-width lookahead
position. -/
def deTier1Scan : Nat → Str → List (Str × Str)
  | 0, _ => []
  | _, [] => []
  | fuel + 1, cs@(_ :: t) =>
    match keyAt cs with
    | some (key, afterColon) =>
      let (v, rest) := deValueWalk [] (afterColon.dropWhile isWs)
      (key, v) :: deTier1Scan fuel rest
    | none => deTier1Scan fuel t

/-- `re.findall(r'([A-Z][A-Z\s]+(?:\sOF\s[A-Z]+)?)\s*:', de_content)` of
tier 2 (line 298). -/
def dePotentialKeys : Nat → Str → List Str
  | 0, _ => []
  | _, [] => []
  | fuel + 1, cs@(_ :: t) =>
    match keyAt cs with
    | some (key, afterColon) => key :: dePotentialKeys fuel afterColon
    | none => dePotentialKeys fuel t

/-- The tier-2 manual walk (lines 300-325): for each captured key locate
`key:` in the block; the value runs to the position of the next declared
key (`keys[i+1]` only) or the end of the block. -/
def deTier2 (content : Str) : PyDict → List Str → PyDict
  | acc, [] => acc
  | acc, key :: restKeys =>
    match findSub content (key ++ S ":") with
    | none => deTier2 content acc restKeys
    | some keyPos =>
      let vStart := keyPos + key.length + 1
      let vEnd :=
        match restKeys with
        | [] => content.length
        | nk :: _ =>
          match findSubFrom content (nk ++ S ":") vStart with
          | some p => p
          | none => content.length
      let value := pyStrip (sliceL content vStart vEnd)
      deTier2 content (acc.insert (pyStrip key) (.s value)) restKeys

/-- Python `s.split(c)`. -/
def splitOnChar (sep : Char) : Str → List Str
  | [] => [[]]
  | c :: t =>
    if c = sep then [] :: splitOnChar sep t
    else
      match splitOnChar sep t with
      | h :: r => (c :: h) :: r
      | [] => [[c]]

/-- `re.search(r'([A-Z][A-Z\s]+)$', key_part)` of tier 3 (line 337):
the leftmost position whose character is `[A-Z]` and whose entire
(nonempty) remainder lies in `[A-Z\s]`. -/
def trailingKeyGroup : Str → Option Str
  | [] => none
  | c :: t =>
    if isUpperA c && (¬ t.isEmpty) && t.all isKeyBody then some (c :: t)
    else trailingKeyGroup t

/-- The simple lookahead `(?=[A-Z][A-Z\s]+:|$)` of the tier-3 value
pattern (line 342): a key of at least two characters followed directly by
a colon (only the maximal `[A-Z\s]` run can be followed by `:`). -/
def lookSimpleAt : Str → Bool
  | c :: t =>
    isUpperA c &&
      (let run := t.takeWhile isKeyBody
       1 ≤ run.length && (match t.drop run.length with | ':' :: _ => true | _ => false))
  | [] => false

/-- The lazy value capture `^(.*?)(?=[A-Z][A-Z\s]+:|$)` of tier 3.  `$`
also matches just before a trailing newline, but the captured value is
`strip`ped immediately, so capturing to the end is equivalent. -/
def tier3ValueWalk : Str → Str → Str
  | valRev, cs =>
    if lookSimpleAt cs then valRev.reverse
    else
      match cs with
      | [] => valRev.reverse
      | c :: t => tier3ValueWalk (c :: valRev) t

/-- One pair of the tier-3 loop: the key part (stripped) must end in an
upper-case run, the value is captured from the following part. -/
def deTier3Step (acc : PyDict) (p : Str × Str) : PyDict :=
  match trailingKeyGroup (pyStrip p.1) with
  | none => acc
  | some g => acc.insert (pyStrip g) (.s (pyStrip (tier3ValueWalk [] p.2)))

/-- Tier 3 (lines 330-346): split on every colon and pair each part with
the next. -/
def deTier3 (content : Str) : PyDict :=
  let parts := splitOnChar ':' content
  if parts.length ≤ 1 then []
  else (parts.zip parts.tail).foldl deTier3Step []

/-- Match `TITLE\s*:` case-insensitively at the current position
(`re.IGNORECASE`, line 352); returns the rest after the colon. -/
def emergencyTitleAt : Str → Option Str
  | a :: b :: c :: d :: e :: t =>
    if a.toLower = 't' && b.toLower = 'i' && c.toLower = 't' && d.toLower = 'l' && e.toLower = 'e' then
      colonAfterWs t
    else none
  | _ => none

/-- The lookahead `(?=\s[A-Z]{2,}|$)` of the emergency pattern under
`re.IGNORECASE`: one whitespace character followed by at least two
letters of either case.  Capturing to the end is again equivalent to `$`
because of the final `strip`. -/
def lookEmergencyAt : Str → Bool
  | a :: b :: c :: _ => isWs a && isAlphaA b && isAlphaA c
  | _ => false

/-- The lazy value capture of the emergency pattern. -/
def emergencyValueWalk : Str → Str → Str
  | valRev, cs =>
    if lookEmergencyAt cs then valRev.reverse
    else
      match cs with
      | [] => valRev.reverse
      | c :: t => emergencyValueWalk (c :: valRev) t

/-- `re.search(r'TITLE\s*:(.*?)(?=\s[A-Z]{2,}|$)', ...)` (lines
349-356). -/
def deEmergency : Str → Option Str
  | [] => none
  | cs@(_ :: t) =>
    match emergencyTitleAt cs with
    | some after => some (pyStrip (emergencyValueWalk [] after))
    | none => deEmergency t

/-- Split a line at the first colon (Python `line.split(":", 1)`), `none`
when the line has no colon. -/
def splitFirstColon (cs : Str) : Option (Str × Str) :=
  match findSub cs (S ":") with
  | none => none
  | some i => some (cs.take i, cs.drop (i + 1))

/-- One line of the legacy loop (lines 407-427). -/
def legacyDeStep (acc : PyDict) (line0 : Str) : PyDict :=
  let line := pyStrip line0
  if line.isEmpty then acc
  else if line.map Char.toLower = S "data extraction" then acc
  else
    match splitFirstColon line with
    | none => acc
    | some (k0, v0) =>
      let key := pyStrip (removeChar '*' (removeChar '"' (pyStrip k0)))
      let value := pyStrip (removeChar '"' (pyStrip v0))
      if key.isEmpty then acc else acc.insert key (.s value)

/-- `ReviewDataParser._legacy_get_data_extraction_text` (lines 361-429).
The four heading variants of lines 368-373 all contain the first one,
`"Data Extraction"`, which is tested first, so the section starts after
the first occurrence of that literal whenever any variant occurs. -/
def legacyDe (s : Str) : PyDict :=
  match findSub s (S "Data Extraction") with
  | none => []
  | some i =>
    let start := i + 15
    let endIdx :=
      [S "Minimum acceptance score", S "SECTION 3", S "Cutoff Score", S "\n\n\n"].foldl
        (fun e mk =>
          match findSubFrom s mk start with
          | some p => if p < e then p else e
          | none => e)
        s.length
    let dataSection := pyStrip (sliceL s start endIdx)
    (splitOnChar '\n' dataSection).foldl legacyDeStep []

/-- Storing one tier-1 field (lines 287-292): key and value are
`strip`ped and written to the dict. -/
def deTier1Insert (acc : PyDict) (m : Str × Str) : PyDict :=
  acc.insert (pyStrip m.1) (.s (pyStrip m.2))

/-- The three marked-block tiers (lines 279-346): tier 1 when its pattern
has matches, else tier 2 when its key scan finds keys, else tier 3. -/
def markedDe (content : Str) : PyDict :=
  match deTier1Scan (content.length + 1) content with
  | [] =>
    match dePotentialKeys (content.length + 1) content with
    | [] => deTier3 content
    | pkeys => deTier2 content [] pkeys
  | ms => ms.foldl deTier1Insert []

/-- `ReviewDataParser.get_data_extraction_text` (lines 259-359): the
marked tiers, then the single-shot `TITLE` emergency pattern when the
block was non-empty but nothing was extracted; without markers, the
legacy path. -/
def get_data_extraction_text (s : Str) : PyDict :=
  match extractBlock deStartMarker deEndMarker s with
  | none => legacyDe s
  | some block =>
    let content := pyStrip block
    let deData := markedDe content
    if ¬ content.isEmpty && deData.isEmpty then
      match deEmergency content with
      | some title => [(S "TITLE", .s title)]
      | none => deData
    else deData

/-!
## Score aggregation / classification
(`ResponseProcessor.process_response`, `process_pasted_response.py` lines
121-163, and the decision part of `PDFToExcelProcessor.run`,
`pdf_to_excel.py` lines 469-501.)
-/

/-- Python `v == 0` for a map value (a string never equals the int 0). -/
def pvIsZero : PyVal → Bool
  | .s _ => false
  | .q x => x = 0

/-- Python truthiness of a map value (`if paper_score`). -/
def pvTruthy : PyVal → Bool
  | .s v => ¬ v.isEmpty
  | .q x => ¬ x = 0

/-- Python `paper_score >= cutoff`.  Comparing a string with a float
raises `TypeError` in Python; this embedding returns `false` on that
branch, and every theorem below either proves the branch unreachable or
assumes a numeric score. -/
def pvGE (v : PyVal) (cutoff : ℚ) : Bool :=
  match v with
  | .s _ => false
  | .q x => cutoff ≤ x

/-- Rejection reason recorded by `process_response` (the exact English
rendering of the f-strings is abstracted; the constructor carries the
question id the reason names). -/
inductive Reason where
  | zeroExcluding (q : Str)
  | belowCutoff
deriving DecidableEq, Repr

/-- The classification logic of `ResponseProcessor.process_response`
(lines 121-163): pop `TOTAL_SCORE` (default `0`), reject on the first
excluding question whose `<id>_SCORE` entry equals `0` (lookup default
`-1`, line 131), otherwise reject exactly when the popped score fails
`paper_score >= self.cutoff_score` (line 149).  Returns the `rejected`
flag and the reason. -/
def classify (m0 : PyDict) (cutoff : ℚ) (excl : List Str) : Bool × Option Reason :=
  let ps := (Dict.popD m0 (S "TOTAL_SCORE") (.q 0)).1
  let qa := (Dict.popD m0 (S "TOTAL_SCORE") (.q 0)).2
  match excl.find? (fun e => pvIsZero (qa.getD (e ++ S "_SCORE") (.q (-1)))) with
  | some e => (true, some (.zeroExcluding e))
  | none =>
    if pvGE ps cutoff then (false, none) else (true, some .belowCutoff)

/-- Outcome of the per-response decision logic of
`PDFToExcelProcessor.run` (lines 479-501). -/
inductive RunOutcome where
  | excludedReject
  | cutoffReject
  | accepted
deriving DecidableEq, Repr

/-- The decision part of `PDFToExcelProcessor.run` (lines 469-501): pop
`"Total Score"` (default `0`, line 471), count excluding questions whose
`"<id> Score"` entry equals `0` (lookup default `1`, line 482) and reject
if any, otherwise extract data only when `paper_score and paper_score >=
self.cutoff_score` (line 491, with Python short-circuit `and`). -/
def runDecision (m0 : PyDict) (excl : List Str) (cutoff : ℚ) : RunOutcome :=
  let ps := (Dict.popD m0 (S "Total Score") (.q 0)).1
  let qa := (Dict.popD m0 (S "Total Score") (.q 0)).2
  let checkE := excl.countP (fun e => pvIsZero (qa.getD (e ++ S " Score") (.q 1)))
  if ¬ checkE = 0 then .excludedReject
  else if pvTruthy ps then (if pvGE ps cutoff then .accepted else .cutoffReject)
  else .cutoffReject

/-!
## Configuration loading
(`ReviewDataParser.load_yaml_file` and the four getters, lines 16-56.)
-/

/-- A quality-assessment question in the rendered form the prompt
builder consumes: `get_analysis_prompt` reads `qa['id']`,
`qa['question']` and `qa['scores']` through f-strings, so the `str()`
rendering of the loaded YAML scalars is abstracted as already-rendered
text. -/
structure QaQuestion where
  id : Str
  question : Str
  scores : List Str
deriving DecidableEq, Repr

/-- A data-extraction field of the configuration document, in the
rendered form the prompt builder consumes. -/
structure DeField where
  key : Str
  description : Str
deriving DecidableEq, Repr

/-- A parsed YAML document value, as far as the configuration loaders
(lines 33-56) can observe one: null, booleans, numbers, strings,
sequences, and string-keyed mappings.  A mapping key that is not a
string can never match the string keys the loaders probe, so such keys
are not represented. -/
inductive YVal where
  | null
  | b (v : Bool)
  | num (v : ℚ)
  | str (v : Str)
  | list (items : List YVal)
  | map (entries : List (Str × YVal))

/-- Python truthiness of a loaded YAML value (the `not data` guard of
lines 35, 42 and 49). -/
def yTruthy : YVal → Bool
  | .null => false
  | .b v => v
  | .num v => !(decide (v = 0))
  | .str s => !s.isEmpty
  | .list l => !l.isEmpty
  | .map m => !m.isEmpty

/-- Python `==` between a loaded YAML value and a string: only a string
can compare equal. -/
def yEqStr : YVal → Str → Bool
  | .str s, k => s == k
  | _, _ => false

/-- Python `"K" in data` (the membership tests of lines 35, 42 and 49):
a key test on a mapping, a substring test on a string, an
element-equality test on a sequence, and a `TypeError` on every other
value (not iterable). -/
def yContains (v : YVal) (k : Str) : Except String Bool :=
  match v with
  | .map m => .ok (Dict.get? m k).isSome
  | .str s => .ok (containsSub s k)
  | .list l => .ok (l.any (fun x => yEqStr x k))
  | _ => .error "TypeError"

/-- Python `data[K]` with a string key: a mapping lookup that raises
`KeyError` when the key is absent; every other value raises `TypeError`
(string and sequence indices must be integers, the rest is not
subscriptable). -/
def ySubscript (v : YVal) (k : Str) : Except String YVal :=
  match v with
  | .map m =>
    match Dict.get? m k with
    | some x => .ok x
    | none => .error "KeyError"
  | _ => .error "TypeError"

/-- Python iteration `for q in sec` (the comprehensions of lines 38 and
45): a sequence yields its items, a string its one-character substrings,
a mapping its keys; every other value raises `TypeError` (not
iterable). -/
def yIter : YVal → Except String (List YVal)
  | .list l => .ok l
  | .str s => .ok (s.map (fun c => YVal.str [c]))
  | .map m => .ok (m.map (fun e => YVal.str e.1))
  | _ => .error "TypeError"

/-- Whether a loaded YAML value is a mapping — the only loaded value
with a `.get` method (line 56). -/
def YVal.isMap : YVal → Bool
  | .map _ => true
  | _ => false

/-- The states the configured YAML file can be in, as far as
`load_yaml_file` (lines 16-22) can distinguish them: the file may be
absent (`open` raises `FileNotFoundError`, which the
`except yaml.YAMLError` clause does not catch), unparseable
(`yaml.YAMLError` is caught and `None` returned), or parse to an
arbitrary document value (an empty file parses to `None`, modelled as
`.parsed .null`). -/
inductive YamlFile where
  | missing
  | badYaml
  | parsed (v : YVal)

/-- `ReviewDataParser.load_yaml_file` (lines 16-22); the Python `None`
returned for an unparseable file is modelled as `YVal.null`. -/
def load_yaml_file : YamlFile → Except String YVal
  | .missing => .error "FileNotFoundError"
  | .badYaml => .ok .null
  | .parsed v => .ok v

/-- One entry produced by the line-38 comprehension: the raw YAML values
found under the `id`, `question` and `scores` keys of a question
mapping. -/
structure QaEntry where
  id : YVal
  question : YVal
  scores : YVal

/-- One entry produced by the line-45 comprehension: the raw YAML values
found under the `key` and `description` keys of a field mapping. -/
structure DeEntry where
  key : YVal
  description : YVal

/-- The body of the line-38 comprehension,
`{"id": q["id"], "question": q["question"], "scores": q["scores"]}`: the
dict literal evaluates its values left to right, so subscripting a
mapping entry lacking a key raises `KeyError` and subscripting a
non-mapping entry raises `TypeError`. -/
def qaEntryOf (q : YVal) : Except String QaEntry :=
  match ySubscript q (S "id") with
  | .error e => .error e
  | .ok i =>
    match ySubscript q (S "question") with
    | .error e => .error e
    | .ok qu =>
      match ySubscript q (S "scores") with
      | .error e => .error e
      | .ok sc => .ok ⟨i, qu, sc⟩

/-- The body of the line-45 comprehension,
`{"key": field["key"], "description": field["description"]}`. -/
def deEntryOf (q : YVal) : Except String DeEntry :=
  match ySubscript q (S "key") with
  | .error e => .error e
  | .ok k =>
    match ySubscript q (S "description") with
    | .error e => .error e
    | .ok d => .ok ⟨k, d⟩

/-- A list comprehension `[body q for q in items]` over already-obtained
items: the elements are evaluated left to right and the first exception
propagates. -/
def mapExcept {α β : Type} (f : α → Except String β) : List α → Except String (List β)
  | [] => .ok []
  | a :: t =>
    match f a with
    | .error e => .error e
    | .ok b =>
      match mapExcept f t with
      | .error e => .error e
      | .ok bs => .ok (b :: bs)

/-- `ReviewDataParser.get_all_quality_assessment_fields` (lines 33-38):
`if not data or "quality_assessment_questions" not in data: return []`
(short-circuit `or`, so the membership test — which can itself raise —
only runs on a truthy document), then the line-38 comprehension over
`data["quality_assessment_questions"]`. -/
def get_all_quality_assessment_fields (f : YamlFile) : Except String (List QaEntry) :=
  match load_yaml_file f with
  | .error e => .error e
  | .ok data =>
    if yTruthy data = false then .ok []
    else
      match yContains data (S "quality_assessment_questions") with
      | .error e => .error e
      | .ok false => .ok []
      | .ok true =>
        match ySubscript data (S "quality_assessment_questions") with
        | .error e => .error e
        | .ok sec =>
          match yIter sec with
          | .error e => .error e
          | .ok items => mapExcept qaEntryOf items

/-- `ReviewDataParser.get_all_data_extraction_fields` (lines 40-45):
the same guard, then the line-45 comprehension over
`data["data_extraction_fields"]`. -/
def get_all_data_extraction_fields (f : YamlFile) : Except String (List DeEntry) :=
  match load_yaml_file f with
  | .error e => .error e
  | .ok data =>
    if yTruthy data = false then .ok []
    else
      match yContains data (S "data_extraction_fields") with
      | .error e => .error e
      | .ok false => .ok []
      | .ok true =>
        match ySubscript data (S "data_extraction_fields") with
        | .error e => .error e
        | .ok sec =>
          match yIter sec with
          | .error e => .error e
          | .ok items => mapExcept deEntryOf items

/-- `ReviewDataParser.get_all_excluding_questions` (lines 47-52): the
same guard, but line 52 returns `data["excluding_questions"]` raw — no
comprehension — so a malformed section value of a mapping document is
returned as-is, never raised on. -/
def get_all_excluding_questions (f : YamlFile) : Except String YVal :=
  match load_yaml_file f with
  | .error e => .error e
  | .ok data =>
    if yTruthy data = false then .ok (.list [])
    else
      match yContains data (S "excluding_questions") with
      | .error e => .error e
      | .ok false => .ok (.list [])
      | .ok true => ySubscript data (S "excluding_questions")

/-- `ReviewDataParser.get_cutoff_score` (lines 54-56): no `not data`
guard — `data.get("cutoff_score", 0)` succeeds only on a mapping (the
only loaded value with a `.get` method); every other document, including
the `None` returned for an unparseable or empty file, raises
`AttributeError`. -/
def get_cutoff_score (f : YamlFile) : Except String YVal :=
  match load_yaml_file f with
  | .error e => .error e
  | .ok (.map m) => .ok (Dict.getD m (S "cutoff_score") (.num 0))
  | .ok _ => .error "AttributeError"

/-!
## Prompt builder
(`ReviewDataParser.get_analysis_prompt`, lines 58-115.)  The builder is
modelled as a function of the already-loaded field lists and the rendered
cutoff text; the per-item score lists are likewise carried as already
rendered text (`', '.join(map(str, qa['scores']))`).
-/

/-- `', '.join(parts)`. -/
def joinComma : List Str → Str
  | [] => []
  | [x] => x
  | x :: xs => x ++ S ", " ++ joinComma xs

/-- `ReviewDataParser.get_analysis_prompt` (lines 58-115). -/
def get_analysis_prompt (qa : List QaQuestion) (de : List DeField) (cutoffText : Str) : Str :=
  if qa.isEmpty || de.isEmpty then []
  else
    S "Hello, I need you to analyze the PDF document I've uploaded. Please follow these instructions precisely:\n\n"
    ++ S "===== PART 1: QUALITY ASSESSMENT =====\n"
    ++ (qa.foldl (fun acc q =>
          acc ++ S "* " ++ q.id ++ S ": " ++ q.question ++ S " (Possible scores: "
            ++ joinComma q.scores ++ S ")\n") [])
    ++ S "\n===== PART 2: DATA EXTRACTION =====\n"
    ++ (de.foldl (fun acc d =>
          acc ++ S "* " ++ d.key ++ S ": " ++ d.description ++ S "\n") [])
    ++ S "\nMinimum acceptance score: " ++ cutoffText ++ S "\n\n"
    ++ S "===== OUTPUT FORMAT INSTRUCTIONS =====\n"
    ++ S "For Quality Assessment, follow this exact format with no deviations:\n\n"
    ++ S "==QUALITY_ASSESSMENT_START==\n"
    ++ S "QE1: [Your brief description here]\n"
    ++ S "QE1_SCORE: [score]\n\n"
    ++ S "QE2: [Your brief description here]\n"
    ++ S "QE2_SCORE: [score]\n"
    ++ S "==QUALITY_ASSESSMENT_END==\n\n"
    ++ S "For Data Extraction, follow this exact format with no deviations:\n\n"
    ++ S "==DATA_EXTRACTION_START==\n"
    ++ S "AUTHOR: [author names]\n"
    ++ S "YEAR: [publication year]\n"
    ++ S "TITLE: [paper title]\n"
    ++ S "==DATA_EXTRACTION_END==\n\n"
    ++ S "IMPORTANT INSTRUCTIONS:\n"
    ++ S "1. Use EXACTLY the section markers shown above (==SECTION_START== and ==SECTION_END==)\n"
    ++ S "2. For quality assessment items, use the exact format 'QE1: [text]' followed by a line break and 'QE1_SCORE: [number]'\n"
    ++ S "3. For data extraction fields, use the exact keys I've listed, in ALL CAPS followed by a colon\n"
    ++ S "4. If information is not available, write 'Not Specified (N/S)'\n"
    ++ S "5. Do not add any additional formatting, bullets, or markdown\n"
    ++ S "6. Each item should be on its own line\n"
    ++ S "7. You should respect the line breaks here and replicate them if they exist\n"

/-!
## Helper lemmas
-/

theorem dropWhile_idem {p : Char → Bool} (l : Str) :
    (l.dropWhile p).dropWhile p = l.dropWhile p := by
  induction l with
  | nil => rfl
  | cons a t ih =>
    by_cases h : p a
    · simp [List.dropWhile, h, ih]
    · simp [List.dropWhile, h]

/-- Right strip, for stating facts about `pyStrip`. -/
def rstripL (s : Str) : Str := (s.reverse.dropWhile isWs).reverse

theorem pyStrip_eq (s : Str) : pyStrip s = rstripL (lstripL s) := rfl

theorem lstripL_idem (s : Str) : lstripL (lstripL s) = lstripL s :=
  dropWhile_idem s

theorem rstripL_idem (s : Str) : rstripL (rstripL s) = rstripL s := by
  simp only [rstripL, List.reverse_reverse, dropWhile_idem]

theorem rstripL_isPrefix (s : Str) : rstripL s <+: s := by
  obtain ⟨t, ht⟩ : s.reverse.dropWhile isWs <:+ s.reverse := List.dropWhile_suffix isWs
  refine ⟨t.reverse, ?_⟩
  have := congrArg List.reverse ht
  simpa [rstripL] using this

theorem lstripL_of_head (s : Str) (h : lstripL s = s) : ∀ u, u <+: s → lstripL u = u := by
  intro u hu
  cases u with
  | nil => rfl
  | cons c r =>
    obtain ⟨t, ht⟩ := hu
    have hs : s = c :: (r ++ t) := by simpa using ht.symm
    have hc : isWs c = false := by
      by_contra hw
      have hw2 : isWs c = true := by
        cases hq : isWs c with
        | false => exact absurd hq hw
        | true => rfl
      rw [hs] at h
      simp only [lstripL, List.dropWhile, hw2] at h
      have hlen := congrArg List.length h
      rw [List.length_cons] at hlen
      have hle := (List.dropWhile_sublist (l := r ++ t) isWs).length_le
      omega
    simp [lstripL, List.dropWhile, hc]

theorem pyStrip_idem (s : Str) : pyStrip (pyStrip s) = pyStrip s := by
  rw [pyStrip_eq, pyStrip_eq]
  have h1 : lstripL (rstripL (lstripL s)) = rstripL (lstripL s) :=
    lstripL_of_head (lstripL s) (lstripL_idem s) _ (rstripL_isPrefix (lstripL s))
  rw [h1, rstripL_idem]

namespace Dict

variable {α : Type}

theorem mem_insert {m : Dict α} {k : Str} {v : α} {p : Str × α}
    (h : p ∈ insert m k v) : p = (k, v) ∨ p ∈ m := by
  induction m with
  | nil => simpa [insert] using h
  | cons e t ih =>
    by_cases he : e.1 = k
    · rw [show insert (e :: t) k v = (k, v) :: t by simp [insert, he]] at h
      rcases List.mem_cons.mp h with h | h
      · exact Or.inl h
      · exact Or.inr (List.mem_cons_of_mem _ h)
    · rw [show insert (e :: t) k v = e :: insert t k v by simp [insert, he]] at h
      rcases List.mem_cons.mp h with h | h
      · exact Or.inr (h ▸ List.mem_cons_self _ _)
      · rcases ih h with h | h
        · exact Or.inl h
        · exact Or.inr (List.mem_cons_of_mem _ h)

theorem get?_mem {m : Dict α} {k : Str} {v : α} (h : get? m k = some v) :
    (k, v) ∈ m := by
  induction m with
  | nil => simp [get?] at h
  | cons e t ih =>
    by_cases he : e.1 = k
    · rw [show get? (e :: t) k = some e.2 by simp [get?, he]] at h
      injection h with h
      have : (k, v) = e := by rw [← he, ← h]
      rw [this]
      exact List.mem_cons_self _ _
    · rw [show get? (e :: t) k = get? t k by simp [get?, he]] at h
      exact List.mem_cons_of_mem _ (ih h)

theorem get?_insert_self (m : Dict α) (k : Str) (v : α) :
    get? (insert m k v) k = some v := by
  induction m with
  | nil => simp [insert, get?]
  | cons e t ih =>
    by_cases he : e.1 = k
    · simp [insert, he, get?]
    · simp [insert, he, get?, ih]

theorem get?_insert_ne (m : Dict α) (k k' : Str) (v : α) (h : ¬ k' = k) :
    get? (insert m k v) k' = get? m k' := by
  have hk : ¬ k = k' := fun hh => h hh.symm
  induction m with
  | nil => simp [insert, get?, hk]
  | cons e t ih =>
    by_cases he : e.1 = k
    · have hek : ¬ e.1 = k' := by rw [he]; exact hk
      simp [insert, he, get?, hk, hek]
    · by_cases hek : e.1 = k'
      · simp [insert, he, get?, hek, h]
      · simp [insert, he, get?, hek, ih]

theorem mem_eraseKey {m : Dict α} {k : Str} {p : Str × α}
    (h : p ∈ eraseKey m k) : p ∈ m := by
  induction m with
  | nil => simp [eraseKey] at h
  | cons e t ih =>
    by_cases he : e.1 = k
    · rw [show eraseKey (e :: t) k = t by simp [eraseKey, he]] at h
      exact List.mem_cons_of_mem _ h
    · rw [show eraseKey (e :: t) k = e :: eraseKey t k by simp [eraseKey, he]] at h
      rcases List.mem_cons.mp h with h | h
      · exact h ▸ List.mem_cons_self _ _
      · exact List.mem_cons_of_mem _ (ih h)

theorem get?_eraseKey_ne (m : Dict α) (k k' : Str) (h : ¬ k' = k) :
    get? (eraseKey m k) k' = get? m k' := by
  have hk : ¬ k = k' := fun hh => h hh.symm
  induction m with
  | nil => simp [eraseKey]
  | cons e t ih =>
    by_cases he : e.1 = k
    · have hek : ¬ e.1 = k' := by rw [he]; exact hk
      simp [eraseKey, he, get?, hek, hk]
    · by_cases hek : e.1 = k'
      · simp [eraseKey, he, get?, hek, h]
      · simp [eraseKey, he, get?, hek, ih]

theorem get?_eq_none {m : Dict α} {k : Str}
    (h : ∀ v, ¬ get? m k = some v) : get? m k = none := by
  cases hv : get? m k with
  | none => rfl
  | some v => exact absurd hv (h v)

end Dict

/-- The shape of identifiers captured by the `QE\d+` patterns. -/
def isQEId (k : Str) : Bool :=
  match k with
  | 'Q' :: 'E' :: ds => (¬ ds.isEmpty) && ds.all isDigit10
  | _ => false

theorem isQEId_shape {k : Str} (h : isQEId k = true) :
    ∃ ds, k = 'Q' :: 'E' :: ds ∧ ¬ ds = [] ∧ ds.all isDigit10 = true := by
  unfold isQEId at h
  split at h
  · rename_i ds
    simp at h
    exact ⟨ds, rfl, by simpa using h.1, List.all_eq_true.mpr h.2⟩
  · simp at h

theorem isQEId_chars {k : Str} (h : isQEId k = true) :
    ∀ c ∈ k, c = 'Q' ∨ c = 'E' ∨ isDigit10 c = true := by
  obtain ⟨ds, hk, _, hall⟩ := isQEId_shape h
  intro c hc
  rw [hk] at hc
  rcases List.mem_cons.mp hc with h1 | hc
  · exact Or.inl h1
  rcases List.mem_cons.mp hc with h1 | hc
  · exact Or.inr (Or.inl h1)
  · exact Or.inr (Or.inr (List.all_eq_true.mp hall c hc))

theorem isQEId_no_space {k : Str} (h : isQEId k = true) : ¬ ' ' ∈ k := by
  intro hm
  rcases isQEId_chars h ' ' hm with h1 | h1 | h1 <;> simp [isDigit10] at h1

theorem isQEId_not_score_suffix {k : Str} (h : isQEId k = true) :
    ¬ (S "_SCORE") <:+ k := by
  intro hs
  have hm : '_' ∈ k := hs.subset (by decide)
  rcases isQEId_chars h '_' hm with h1 | h1 | h1 <;> simp [isDigit10] at h1

theorem isQEId_head {k : Str} (h : isQEId k = true) : ∃ t, k = 'Q' :: t := by
  obtain ⟨ds, hk, _, _⟩ := isQEId_shape h
  exact ⟨'E' :: ds, hk⟩

theorem isQEId_ne_total {k : Str} (h : isQEId k = true) : ¬ k = S "TOTAL_SCORE" := by
  obtain ⟨t, hk⟩ := isQEId_head h
  rw [hk]
  intro he
  have := congrArg (fun l => List.headD l ' ') he
  simp [S] at this

theorem isQEId_ne_score {k : Str} (h : isQEId k = true) : ¬ k = S "SCORE" := by
  obtain ⟨t, hk⟩ := isQEId_head h
  rw [hk]
  intro he
  have := congrArg (fun l => List.headD l ' ') he
  simp [S] at this

theorem qeId_isQEId {cs id rest : Str} (h : qeId cs = some (id, rest)) :
    isQEId id = true := by
  unfold qeId at h
  split at h
  · rename_i t
    by_cases hd : (t.takeWhile isDigit10).isEmpty
    · simp [hd] at h
    · simp [hd] at h
      rw [← h.1]
      simp only [isQEId]
      refine (Bool.and_eq_true _ _).mpr ⟨?_, ?_⟩
      · simpa using hd
      · exact List.all_eq_true.mpr fun c hc => List.mem_takeWhile_imp hc
  · simp at h

theorem qeIdColon_isQEId {cs id rest : Str} (h : qeIdColon cs = some (id, rest)) :
    isQEId id = true := by
  unfold qeIdColon at h
  split at h
  · rename_i id' r heq
    injection h with h2
    have hid : id' = id := congrArg Prod.fst h2
    exact hid ▸ qeId_isQEId heq
  · simp at h

theorem tier1MatchAt_isQEId {cs : Str} {id desc run rest : Str}
    (h : tier1MatchAt cs = some (id, desc, run, rest)) : isQEId id = true := by
  unfold tier1MatchAt at h
  split at h
  · simp at h
  · rename_i idv rv heq
    split at h
    · simp at h
    · rename_i dv sv restv heq2
      injection h with h2
      have hid : idv = id := congrArg Prod.fst h2
      exact hid ▸ qeIdColon_isQEId heq

theorem tier1Scan_isQEId : ∀ (fuel : Nat) (cs : Str),
    ∀ m ∈ tier1Scan fuel cs, isQEId m.1 = true := by
  intro fuel
  induction fuel with
  | zero => intro cs m hm; simp [tier1Scan] at hm
  | succ n ih =>
    intro cs m hm
    cases cs with
    | nil => simp [tier1Scan] at hm
    | cons c t =>
      cases hmt : tier1MatchAt (c :: t) with
      | none =>
        rw [show tier1Scan (n + 1) (c :: t) = tier1Scan n t by
          simp [tier1Scan, hmt]] at hm
        exact ih t m hm
      | some r =>
        obtain ⟨id, desc, run, rest⟩ := r
        rw [show tier1Scan (n + 1) (c :: t) = (id, desc, run) :: tier1Scan n rest by
          simp [tier1Scan, hmt]] at hm
        rcases List.mem_cons.mp hm with h1 | h1
        · rw [h1]
          exact tier1MatchAt_isQEId hmt
        · exact ih rest m h1

theorem tier2Ids_isQEId : ∀ (fuel : Nat) (cs : Str),
    ∀ id ∈ tier2Ids fuel cs, isQEId id = true := by
  intro fuel
  induction fuel with
  | zero => intro cs id hm; simp [tier2Ids] at hm
  | succ n ih =>
    intro cs id hm
    cases cs with
    | nil => simp [tier2Ids] at hm
    | cons c t =>
      cases hmt : qeIdColon (c :: t) with
      | none =>
        rw [show tier2Ids (n + 1) (c :: t) = tier2Ids n t by
          simp [tier2Ids, hmt]] at hm
        exact ih t id hm
      | some r =>
        obtain ⟨id', rest⟩ := r
        rw [show tier2Ids (n + 1) (c :: t) = id' :: tier2Ids n rest by
          simp [tier2Ids, hmt]] at hm
        rcases List.mem_cons.mp hm with h1 | h1
        · rw [h1]
          exact qeIdColon_isQEId hmt
        · exact ih rest id h1

theorem legacyMatchAt_isQEId {cs : Str} {id desc run rest : Str}
    (h : legacyMatchAt cs = some (id, desc, run, rest)) : isQEId id = true := by
  unfold legacyMatchAt at h
  split at h
  · simp at h
  · rename_i idv rv heq
    split at h
    · simp at h
    · rename_i dv sv restv heq2
      injection h with h2
      have hid : idv = id := congrArg Prod.fst h2
      exact hid ▸ qeId_isQEId heq

theorem legacyScan_isQEId : ∀ (fuel : Nat) (cs : Str),
    ∀ m ∈ legacyScan fuel cs, isQEId m.1 = true := by
  intro fuel
  induction fuel with
  | zero => intro cs m hm; simp [legacyScan] at hm
  | succ n ih =>
    intro cs m hm
    cases cs with
    | nil => simp [legacyScan] at hm
    | cons c t =>
      cases hmt : legacyMatchAt (c :: t) with
      | none =>
        rw [show legacyScan (n + 1) (c :: t) = legacyScan n t by
          simp [legacyScan, hmt]] at hm
        exact ih t m hm
      | some r =>
        obtain ⟨id, desc, run, rest⟩ := r
        rw [show legacyScan (n + 1) (c :: t) = (id, desc, run) :: legacyScan n rest by
          simp [legacyScan, hmt]] at hm
        rcases List.mem_cons.mp hm with h1 | h1
        · rw [h1]
          exact legacyMatchAt_isQEId hmt
        · exact ih rest m h1

/-- Entry shape of the intermediate `qa_data` dict produced by the three
extraction tiers: the `TOTAL_SCORE` entry holds a number and every other
entry is a per-item inner dict of the fixed two-key form. -/
def EntryOK : Str × QaObj → Prop
  | (k, QaObj.val v) => k = S "TOTAL_SCORE" ∧ ∃ x, v = PyVal.q x
  | (k, QaObj.dict d) =>
    isQEId k = true ∧ ∃ ds x, d = [(k, PyVal.s ds), (S "SCORE", PyVal.q x)]

/-- Entry shape of the flattened quality-assessment map. -/
def FlatOK : Str × PyVal → Prop
  | (k, v) =>
    k = S "TOTAL_SCORE" ∨
    (k = S "TOTAL_SCORE_SCORE" ∧ v = PyVal.s []) ∨
    (isQEId k = true ∧ ∃ t, v = PyVal.s t) ∨
    (∃ id, isQEId id = true ∧ k = id ++ S "_SCORE" ∧ ∃ x, v = PyVal.q x)

theorem tier1_fold_entryOK (ms : List (Str × Str × Str)) :
    ∀ acc : QaDict × ℚ, (∀ m ∈ ms, isQEId m.1 = true) →
      (∀ p ∈ acc.1, EntryOK p) → ∀ p ∈ (ms.foldl tier1Step acc).1, EntryOK p := by
  induction ms with
  | nil => intro acc _ hacc p hp; exact hacc p hp
  | cons m t ih =>
    intro acc hids hacc p hp
    rw [List.foldl_cons] at hp
    refine ih (tier1Step acc m) (fun x hx => hids x (List.mem_cons_of_mem _ hx)) ?_ p hp
    intro q hq
    unfold tier1Step at hq
    cases hf : pyFloat m.2.2 with
    | none => rw [hf] at hq; exact hacc q hq
    | some x =>
      rw [hf] at hq
      rcases Dict.mem_insert hq with h1 | h1
      · rw [h1]
        exact ⟨hids m (List.mem_cons_self _ _), _, x, rfl⟩
      · exact hacc q h1

theorem tier2_fold_entryOK (content : Str) (ids0 : List Str) (ids : List Str) :
    ∀ acc : QaDict × ℚ, (∀ id ∈ ids, isQEId id = true) →
      (∀ p ∈ acc.1, EntryOK p) →
      ∀ p ∈ (ids.foldl (tier2Step content ids0) acc).1, EntryOK p := by
  induction ids with
  | nil => intro acc _ hacc p hp; exact hacc p hp
  | cons id t ih =>
    intro acc hids hacc p hp
    rw [List.foldl_cons] at hp
    refine ih (tier2Step content ids0 acc id) (fun x hx => hids x (List.mem_cons_of_mem _ hx)) ?_ p hp
    intro q hq
    unfold tier2Step at hq
    cases hf : tier2Item content ids0 id with
    | none => rw [hf] at hq; exact hacc q hq
    | some r =>
      rw [hf] at hq
      rcases Dict.mem_insert hq with h1 | h1
      · rw [h1]
        exact ⟨hids id (List.mem_cons_self _ _), _, _, rfl⟩
      · exact hacc q h1

theorem legacy_foldM_entryOK (ms : List (Str × Str × Str)) :
    ∀ (acc r : QaDict × ℚ), (∀ m ∈ ms, isQEId m.1 = true) →
      (∀ p ∈ acc.1, EntryOK p) →
      ms.foldlM legacyStep acc = .ok r → ∀ p ∈ r.1, EntryOK p := by
  induction ms with
  | nil =>
    intro acc r _ hacc h p hp
    have h2 : Except.ok acc = Except.ok (ε := String) r := h
    injection h2 with h2
    rw [← h2] at hp
    exact hacc p hp
  | cons m t ih =>
    intro acc r hids hacc h p hp
    rw [List.foldlM_cons] at h
    cases hs : legacyStep acc m with
    | error e =>
      rw [hs] at h
      have h2 : Except.error (α := QaDict × ℚ) e = Except.ok r := h
      simp at h2
    | ok acc2 =>
      rw [hs] at h
      replace h : List.foldlM legacyStep acc2 t = .ok r := h
      refine ih acc2 r (fun x hx => hids x (List.mem_cons_of_mem _ hx)) ?_ h p hp
      intro q hq
      unfold legacyStep at hs
      cases hf : pyFloat (pyStrip m.2.2) with
      | none => rw [hf] at hs; simp at hs
      | some x =>
        rw [hf] at hs
        injection hs with hs
        rw [← hs] at hq
        rcases Dict.mem_insert hq with h1 | h1
        · rw [h1]
          exact ⟨hids m (List.mem_cons_self _ _), _, x, rfl⟩
        · exact hacc q h1

theorem preprocess_fold_flatOK (qa : List (Str × QaObj)) :
    ∀ acc : PyDict, (∀ p ∈ qa, EntryOK p) → (∀ p ∈ acc, FlatOK p) →
      ∀ p ∈ qa.foldl preprocessStep acc, FlatOK p := by
  induction qa with
  | nil => intro acc _ hacc p hp; exact hacc p hp
  | cons e t ih =>
    intro acc hqa hacc p hp
    rw [List.foldl_cons] at hp
    refine ih (preprocessStep acc e) (fun x hx => hqa x (List.mem_cons_of_mem _ hx)) ?_ p hp
    intro q hq
    have he : EntryOK e := hqa e (List.mem_cons_self _ _)
    obtain ⟨k, obj⟩ := e
    cases obj with
    | dict d =>
      obtain ⟨hk, ds, x, hd⟩ := he
      unfold preprocessStep at hq
      rcases Dict.mem_insert hq with h1 | h1
      · rw [h1, hd]
        refine Or.inr (Or.inr (Or.inr ⟨k, hk, rfl, x, ?_⟩))
        have hne : ¬ k = S "SCORE" := isQEId_ne_score hk
        simp [Dict.getD, Dict.get?, hne]
      · rcases Dict.mem_insert h1 with h2 | h2
        · rw [h2, hd]
          refine Or.inr (Or.inr (Or.inl ⟨hk, ds, ?_⟩))
          simp [Dict.getD, Dict.get?]
        · exact hacc q h2
    | val v =>
      obtain ⟨hk, x, hv⟩ := he
      unfold preprocessStep at hq
      rcases Dict.mem_insert hq with h1 | h1
      · rw [h1, hk]
        refine Or.inr (Or.inl ⟨?_, rfl⟩)
        decide
      · rcases Dict.mem_insert h1 with h2 | h2
        · rw [h2, hk]
          exact Or.inl rfl
        · exact hacc q h2

theorem preprocess_mem_flatOK {qa : List (Str × QaObj)} {total : ℚ}
    (hq : ∀ p ∈ qa, EntryOK p) :
    ∀ p ∈ preprocess_qa_data qa total, FlatOK p := by
  intro p hp
  unfold preprocess_qa_data at hp
  rcases Dict.mem_insert hp with h1 | h1
  · rw [h1]
    exact Or.inl rfl
  · exact preprocess_fold_flatOK qa [] hq (by simp) p h1

theorem markedQaAcc_entryOK (content : Str) :
    ∀ p ∈ (markedQaAcc content).1, EntryOK p := by
  unfold markedQaAcc
  cases hms : tier1Scan (content.length + 1) content with
  | nil =>
    simp only
    exact tier2_fold_entryOK content _ _ ([], 0)
      (fun id hid => tier2Ids_isQEId _ _ id hid) (by simp)
  | cons m t =>
    simp only
    refine tier1_fold_entryOK (m :: t) ([], 0) ?_ (by simp)
    intro x hx
    exact tier1Scan_isQEId (content.length + 1) content x (hms ▸ hx)

/-- Every successful run of the quality-assessment extraction produces
`preprocess_qa_data` applied to a well-shaped `qa_data` dict. -/
theorem qa_ok_cases {s : Str} {m : PyDict}
    (h : get_quality_assessment_text s = .ok m) :
    ∃ qa total, (∀ p ∈ qa, EntryOK p) ∧
      m = preprocess_qa_data (Dict.insert qa (S "TOTAL_SCORE") (.val (.q total))) total := by
  unfold get_quality_assessment_text at h
  split at h
  · unfold legacyQa at h
    split at h
    · simp at h
    · rename_i qa total heq
      injection h with h2
      refine ⟨qa, total, ?_, h2.symm⟩
      exact legacy_foldM_entryOK _ ([], 0) (qa, total)
        (fun x hx => legacyScan_isQEId _ _ x hx) (by simp) heq
  · rename_i block heq
    injection h with h2
    refine ⟨(markedQaAcc (pyStrip block)).1, (markedQaAcc (pyStrip block)).2,
      markedQaAcc_entryOK _, ?_⟩
    rw [← h2]
    rfl

theorem qa_ok_flatOK {s : Str} {m : PyDict}
    (h : get_quality_assessment_text s = .ok m) : ∀ p ∈ m, FlatOK p := by
  obtain ⟨qa, total, hqa, hm⟩ := qa_ok_cases h
  rw [hm]
  refine preprocess_mem_flatOK ?_
  intro p hp
  rcases Dict.mem_insert hp with h1 | h1
  · rw [h1]
    exact ⟨rfl, total, rfl⟩
  · exact hqa p h1

theorem qa_ok_total {s : Str} {m : PyDict}
    (h : get_quality_assessment_text s = .ok m) :
    ∃ x, Dict.get? m (S "TOTAL_SCORE") = some (PyVal.q x) := by
  obtain ⟨qa, total, _, hm⟩ := qa_ok_cases h
  rw [hm]
  exact ⟨total, Dict.get?_insert_self _ _ _⟩

theorem flatOK_no_space {p : Str × PyVal} (h : FlatOK p) : ¬ ' ' ∈ p.1 := by
  obtain ⟨k, v⟩ := p
  rcases h with h1 | h1 | h1 | h1
  · rw [h1]
    show ¬ ' ' ∈ S "TOTAL_SCORE"
    decide
  · rw [h1.1]
    show ¬ ' ' ∈ S "TOTAL_SCORE_SCORE"
    decide
  · exact isQEId_no_space h1.1
  · obtain ⟨id, hid, hk, _⟩ := h1
    rw [hk]
    intro hm
    rcases List.mem_append.mp hm with hm | hm
    · exact isQEId_no_space hid hm
    · simp [S] at hm

/-- No key of a produced quality-assessment map contains a space
character. -/
theorem qa_ok_no_space {s : Str} {m : PyDict}
    (h : get_quality_assessment_text s = .ok m) : ∀ p ∈ m, ¬ ' ' ∈ p.1 :=
  fun p hp => flatOK_no_space (qa_ok_flatOK h p hp)

/-- A map value that is a string equal to its own `strip`. -/
def ValTrim (v : PyVal) : Prop := ∀ t, v = PyVal.s t → pyStrip t = t

theorem valTrim_strip (x : Str) : ValTrim (.s (pyStrip x)) := by
  intro t ht
  injection ht with ht
  rw [← ht]
  exact pyStrip_idem x

theorem deTier1_fold_valTrim (ms : List (Str × Str)) :
    ∀ acc : PyDict, (∀ p ∈ acc, ValTrim p.2) →
      ∀ p ∈ ms.foldl deTier1Insert acc, ValTrim p.2 := by
  induction ms with
  | nil => intro acc hacc p hp; exact hacc p hp
  | cons m t ih =>
    intro acc hacc p hp
    rw [List.foldl_cons] at hp
    refine ih _ ?_ p hp
    intro q hq
    rcases Dict.mem_insert hq with h1 | h1
    · rw [h1]
      exact valTrim_strip _
    · exact hacc q h1

theorem deTier2_valTrim (content : Str) (keys : List Str) :
    ∀ acc : PyDict, (∀ p ∈ acc, ValTrim p.2) →
      ∀ p ∈ deTier2 content acc keys, ValTrim p.2 := by
  induction keys with
  | nil => intro acc hacc p hp; exact hacc p hp
  | cons key t ih =>
    intro acc hacc p hp
    unfold deTier2 at hp
    cases hf : findSub content (key ++ S ":") with
    | none =>
      rw [hf] at hp
      exact ih acc hacc p hp
    | some keyPos =>
      rw [hf] at hp
      refine ih _ ?_ p hp
      intro q hq
      rcases Dict.mem_insert hq with h1 | h1
      · rw [h1]
        exact valTrim_strip _
      · exact hacc q h1

theorem deTier3_fold_valTrim (ps : List (Str × Str)) :
    ∀ acc : PyDict, (∀ p ∈ acc, ValTrim p.2) →
      ∀ p ∈ ps.foldl deTier3Step acc, ValTrim p.2 := by
  induction ps with
  | nil => intro acc hacc p hp; exact hacc p hp
  | cons m t ih =>
    intro acc hacc p hp
    rw [List.foldl_cons] at hp
    refine ih _ ?_ p hp
    intro q hq
    unfold deTier3Step at hq
    cases hg : trailingKeyGroup (pyStrip m.1) with
    | none => rw [hg] at hq; exact hacc q hq
    | some g =>
      rw [hg] at hq
      rcases Dict.mem_insert hq with h1 | h1
      · rw [h1]
        exact valTrim_strip _
      · exact hacc q h1

theorem legacyDe_fold_valTrim (lines : List Str) :
    ∀ acc : PyDict, (∀ p ∈ acc, ValTrim p.2) →
      ∀ p ∈ lines.foldl legacyDeStep acc, ValTrim p.2 := by
  induction lines with
  | nil => intro acc hacc p hp; exact hacc p hp
  | cons l t ih =>
    intro acc hacc p hp
    rw [List.foldl_cons] at hp
    refine ih _ ?_ p hp
    intro q hq
    unfold legacyDeStep at hq
    by_cases h1 : (pyStrip l).isEmpty
    · simp only [h1, if_true] at hq
      exact hacc q hq
    · simp only [h1, if_false] at hq
      by_cases h2 : (pyStrip l).map Char.toLower = S "data extraction"
      · simp only [h2, if_true] at hq
        exact hacc q hq
      · simp only [h2, if_false] at hq
        cases hc : splitFirstColon (pyStrip l) with
        | none => rw [hc] at hq; exact hacc q hq
        | some kv =>
          rw [hc] at hq
          by_cases h3 : (pyStrip (removeChar '*' (removeChar '"' (pyStrip kv.1)))).isEmpty
          · simp only [h3, if_true] at hq
            exact hacc q hq
          · simp only [h3, if_false] at hq
            rcases Dict.mem_insert hq with h4 | h4
            · rw [h4]
              exact valTrim_strip _
            · exact hacc q h4

theorem markedDe_valTrim (content : Str) :
    ∀ p ∈ markedDe content, ValTrim p.2 := by
  unfold markedDe
  cases hms : deTier1Scan (content.length + 1) content with
  | nil =>
    cases hk : dePotentialKeys (content.length + 1) content with
    | nil =>
      unfold deTier3
      by_cases hl : (splitOnChar ':' content).length ≤ 1
      · simp [hl]
      · simp only [hl, if_false]
        exact deTier3_fold_valTrim _ [] (by simp)
    | cons k t => exact deTier2_valTrim content (k :: t) [] (by simp)
  | cons m t => exact deTier1_fold_valTrim (m :: t) [] (by simp)

theorem deEmergency_strip : ∀ (cs title : Str),
    deEmergency cs = some title → ∃ x, title = pyStrip x := by
  intro cs
  induction cs with
  | nil => intro title h; simp [deEmergency] at h
  | cons c t ih =>
    intro title h
    unfold deEmergency at h
    cases he : emergencyTitleAt (c :: t) with
    | some after =>
      rw [he] at h
      injection h with h
      exact ⟨_, h.symm⟩
    | none =>
      rw [he] at h
      exact ih title h

/-- Every string value of a map returned by the data-extraction engine is
equal to its own `strip` (values are stored trimmed on every path). -/
theorem de_valTrim (s : Str) : ∀ p ∈ get_data_extraction_text s, ValTrim p.2 := by
  unfold get_data_extraction_text
  split
  · unfold legacyDe
    split
    · simp
    · exact legacyDe_fold_valTrim _ [] (by simp)
  · rename_i block heq
    by_cases hc : (¬ (pyStrip block).isEmpty && (markedDe (pyStrip block)).isEmpty) = true
    · simp only [hc, if_true]
      split
      · rename_i title he
        intro p hp
        rcases List.mem_singleton.mp hp with rfl
        obtain ⟨x, hx⟩ := deEmergency_strip _ _ he
        intro t ht
        injection ht with ht
        rw [← ht, hx]
        exact pyStrip_idem x
      · exact markedDe_valTrim (pyStrip block)
    · simp only [hc, if_false]
      exact markedDe_valTrim (pyStrip block)

theorem takeWhile_cons_pos {p : Char → Bool} {c : Char} (h : p c = true) (t : Str) :
    (c :: t).takeWhile p = c :: t.takeWhile p := by
  simp [List.takeWhile_cons, h]

theorem findSubAux_space_shape : ∀ (l : Str) (base : Nat),
    (findSubAux (S " ") l base = none ∧ l.takeWhile (fun c => ¬ c = ' ') = l) ∨
    (∃ i, findSubAux (S " ") l base = some (base + i) ∧
      l.takeWhile (fun c => ¬ c = ' ') = l.take i) := by
  intro l
  induction l with
  | nil => intro base; exact Or.inl ⟨by simp [findSubAux, S], rfl⟩
  | cons c t ih =>
    intro base
    by_cases hcs : c = ' '
    · refine Or.inr ⟨0, ?_, ?_⟩
      · simp [findSubAux, List.isPrefixOf, S, hcs]
      · simp [List.takeWhile, hcs]
    · have hpre : (S " ").isPrefixOf (c :: t) = false := by
        simp [List.isPrefixOf, S]
        intro hc
        exact absurd hc.symm hcs
      rcases ih (base + 1) with ⟨h1, h2⟩ | ⟨i, h1, h2⟩
      · refine Or.inl ⟨?_, ?_⟩
        · simp [findSubAux, hpre, h1]
        · rw [takeWhile_cons_pos (by simp [hcs]), h2]
      · refine Or.inr ⟨i + 1, ?_, ?_⟩
        · rw [show base + (i + 1) = base + 1 + i by omega]
          simp [findSubAux, hpre, h1]
        · rw [takeWhile_cons_pos (by simp [hcs]), h2, List.take_succ_cons]

/-- The definition of the amended claim C9: the tier-2 score text is the
substring from right after the marker up to the next literal space
character (or the end of the block), then stripped. -/
def scoreTextAmended (content : Str) (start : Nat) : Str :=
  pyStrip ((content.drop start).takeWhile (fun c => ¬ c = ' '))

theorem tier2ScoreText_eq (content : Str) (start : Nat) :
    tier2ScoreText content start = scoreTextAmended content start := by
  unfold tier2ScoreText scoreTextAmended findSubFrom sliceL sliceFrom
  rcases findSubAux_space_shape (content.drop start) 0 with ⟨h1, h2⟩ | ⟨i, h1, h2⟩
  · rw [h1]
    show pyStrip (content.drop start) =
      pyStrip ((content.drop start).takeWhile (fun c => ¬ c = ' '))
    rw [h2]
  · rw [h1]
    have hi : 0 + i + start - start = i := by omega
    show pyStrip ((content.drop start).take (0 + i + start - start)) =
      pyStrip ((content.drop start).takeWhile (fun c => ¬ c = ' '))
    rw [hi, h2]

theorem tier1_fold_filter (ms : List (Str × Str × Str)) :
    ∀ acc : QaDict × ℚ,
      ms.foldl tier1Step acc =
        (ms.filter (fun m => (pyFloat m.2.2).isSome)).foldl tier1Step acc := by
  induction ms with
  | nil => intro acc; rfl
  | cons m t ih =>
    intro acc
    cases hf : pyFloat m.2.2 with
    | none =>
      have hs : tier1Step acc m = acc := by unfold tier1Step; rw [hf]
      rw [List.foldl_cons, hs,
        show (m :: t).filter (fun m => (pyFloat m.2.2).isSome) =
          t.filter (fun m => (pyFloat m.2.2).isSome) by simp [List.filter, hf]]
      exact ih acc
    | some q =>
      rw [List.foldl_cons,
        show (m :: t).filter (fun m => (pyFloat m.2.2).isSome) =
          m :: t.filter (fun m => (pyFloat m.2.2).isSome) by simp [List.filter, hf],
        List.foldl_cons]
      exact ih (tier1Step acc m)

/-!
## Claims

Each claim of the specification review is settled by one theorem below
(with a witness or counterexample theorem where required).
-/

/-- Input of end-to-end scenario A (claim C2). -/
def qaInputA : Str :=
  S "==QUALITY_ASSESSMENT_START==\nQE1: Good paper\nQE1_SCORE: 1.0\nQE2: Weak\nQE2_SCORE: 0.5\n==QUALITY_ASSESSMENT_END=="

/-- The map actually returned on scenario A: the five entries of the
claim plus the synthesised `TOTAL_SCORE_SCORE` entry produced by
`preprocess_qa_data` (which flattens the `TOTAL_SCORE` entry of
`qa_data` through its non-dict branch before the total is re-inserted). -/
def qaOutputA : PyDict :=
  [(S "QE1", .s (S "Good paper")), (S "QE1_SCORE", .q 1),
   (S "QE2", .s (S "Weak")), (S "QE2_SCORE", .q (mkRat 1 2)),
   (S "TOTAL_SCORE", .q (mkRat 3 2)), (S "TOTAL_SCORE_SCORE", .s [])]

/-- Claim C2 (counterexample): on the exact scenario-A input the returned map
has the additional key `TOTAL_SCORE_SCORE` (bound to the empty string),
which is not among the five keys of the claimed map, so the extraction
does not return exactly the claimed map. -/
theorem qa_scenarioA_counterexample :
    get_quality_assessment_text qaInputA = .ok qaOutputA ∧
    Dict.get? qaOutputA (S "TOTAL_SCORE_SCORE") = some (.s []) ∧
    ¬ (S "TOTAL_SCORE_SCORE") ∈
      [S "QE1", S "QE1_SCORE", S "QE2", S "QE2_SCORE", S "TOTAL_SCORE"] := by
  decide

/-- Claim C2 (amended): on the exact scenario-A input the extraction returns
exactly the claimed five entries (in this insertion order) plus one
additional entry `TOTAL_SCORE_SCORE` bound to the empty string. -/
theorem qa_scenarioA_amended :
    get_quality_assessment_text qaInputA = .ok qaOutputA := by decide

/-- The quality-assessment map returned for the empty response. -/
def qaEmptyOutput : PyDict :=
  [(S "TOTAL_SCORE", .q 0), (S "TOTAL_SCORE_SCORE", .s [])]

/-- Claim C3 (counterexample): on the empty response the quality-assessment
extraction does not return an empty map — the returned map carries the
`TOTAL_SCORE` and `TOTAL_SCORE_SCORE` entries. -/
theorem empty_response_counterexample :
    get_quality_assessment_text (S "") = .ok qaEmptyOutput ∧
    ¬ qaEmptyOutput = ([] : PyDict) := by decide

/-- Claim C3 (amended): on the empty response neither extraction raises; the
data-extraction map is empty, and the quality-assessment map consists
exactly of `TOTAL_SCORE` bound to `0` and `TOTAL_SCORE_SCORE` bound to
the empty string. -/
theorem empty_response_amended :
    get_quality_assessment_text (S "") = .ok qaEmptyOutput ∧
    Dict.get? qaEmptyOutput (S "TOTAL_SCORE") = some (.q 0) ∧
    get_data_extraction_text (S "") = ([] : PyDict) := by decide

/-- Input used for the claim C5 counterexample and witness. -/
def qaInputC5 : Str :=
  S "==QUALITY_ASSESSMENT_START==QE3: ok\nQE3_SCORE: 2==QUALITY_ASSESSMENT_END=="

def qaOutputC5 : PyDict :=
  [(S "QE3", .s (S "ok")), (S "QE3_SCORE", .q 2),
   (S "TOTAL_SCORE", .q 2), (S "TOTAL_SCORE_SCORE", .s [])]

/-- Claim C5 (counterexample): a returned quality-assessment map contains the
key `TOTAL_SCORE_SCORE`, which ends in `_SCORE` but is bound to the empty
string — a value `float` cannot parse. -/
theorem score_keys_numeric_counterexample :
    get_quality_assessment_text qaInputC5 = .ok qaOutputC5 ∧
    Dict.get? qaOutputC5 (S "TOTAL_SCORE_SCORE") = some (.s []) ∧
    (S "_SCORE") <:+ (S "TOTAL_SCORE_SCORE") ∧
    pyFloat [] = none := by decide

/-- Claim C5 (amended): in every map returned by the quality-assessment
extraction, every key ending in `_SCORE` other than the synthetic
`TOTAL_SCORE_SCORE` (which is bound to the empty string) is bound to a
numeric value. -/
theorem score_keys_numeric_amended (s : Str) (m : PyDict) (k : Str) (v : PyVal)
    (hok : get_quality_assessment_text s = .ok m)
    (hget : Dict.get? m k = some v)
    (hsuf : (S "_SCORE") <:+ k)
    (hne : ¬ k = S "TOTAL_SCORE_SCORE") :
    ∃ x, v = PyVal.q x := by
  by_cases hk : k = S "TOTAL_SCORE"
  · obtain ⟨x, hx⟩ := qa_ok_total hok
    rw [hk] at hget
    rw [hget] at hx
    injection hx with hx
    exact ⟨x, hx⟩
  · have hf := qa_ok_flatOK hok _ (Dict.get?_mem hget)
    rcases hf with h1 | h1 | h1 | h1
    · exact absurd h1 hk
    · exact absurd h1.1 hne
    · exact absurd hsuf (isQEId_not_score_suffix h1.1)
    · obtain ⟨id, _, _, x, hx⟩ := h1
      exact ⟨x, hx⟩

/-- Claim C5 (witness): the amended theorem applied at a concrete map and
key. -/
theorem score_keys_numeric_witness : ∃ x, PyVal.q 2 = PyVal.q x :=
  score_keys_numeric_amended qaInputC5 qaOutputC5 (S "QE3_SCORE") (.q 2)
    (by decide) (by decide) (by decide) (by decide)

/-- Input used for the claim C7 counterexample and witness. -/
def qaInputC7 : Str :=
  S "==QUALITY_ASSESSMENT_START==QE1: d QE1_SCORE: 1==QUALITY_ASSESSMENT_END=="

def qaOutputC7 : PyDict :=
  [(S "QE1", .s (S "d")), (S "QE1_SCORE", .q 1),
   (S "TOTAL_SCORE", .q 1), (S "TOTAL_SCORE_SCORE", .s [])]

/-- Claim C7 (counterexample): the quality-assessment extraction does not emit
only `TOTAL_SCORE` and `<id>_SCORE` keys — it also emits the plain
description key `QE1`, which is neither. -/
theorem qa_emits_plain_id_counterexample :
    get_quality_assessment_text qaInputC7 = .ok qaOutputC7 ∧
    Dict.get? qaOutputC7 (S "QE1") = some (.s (S "d")) ∧
    ¬ (S "QE1") = S "TOTAL_SCORE" ∧
    ¬ (S "_SCORE") <:+ (S "QE1") := by decide

/-- Claim C7 (amended): no key of a returned quality-assessment map contains a
space, so in `PDFToExcelProcessor.run` the pop of `"Total Score"` always
yields the default `0`, every excluding-question lookup of `"<id> Score"`
always yields the default `1` (the exclusion branch is never taken), and
the decision always takes the below-cutoff rejection branch. -/
theorem run_below_cutoff_amended (s : Str) (m : PyDict) (excl : List Str) (cutoff : ℚ)
    (hok : get_quality_assessment_text s = .ok m) :
    (Dict.popD m (S "Total Score") (.q 0)).1 = .q 0 ∧
    (∀ e : Str,
      Dict.getD (Dict.popD m (S "Total Score") (.q 0)).2 (e ++ S " Score") (.q 1) = .q 1) ∧
    runDecision m excl cutoff = .cutoffReject := by
  have hTS : Dict.get? m (S "Total Score") = none := by
    refine Dict.get?_eq_none ?_
    intro v hv
    exact absurd (show ' ' ∈ S "Total Score" by decide)
      (qa_ok_no_space hok _ (Dict.get?_mem hv))
  have hES : ∀ e : Str,
      Dict.get? (Dict.eraseKey m (S "Total Score")) (e ++ S " Score") = none := by
    intro e
    refine Dict.get?_eq_none ?_
    intro v hv
    refine absurd ?_ (qa_ok_no_space hok _ (Dict.mem_eraseKey (Dict.get?_mem hv)))
    exact List.mem_append.mpr (Or.inr (by decide))
  refine ⟨?_, ?_, ?_⟩
  · simp [Dict.popD, Dict.getD, hTS]
  · intro e
    simp [Dict.popD, Dict.getD, hES e]
  · have h1 : (Dict.popD m (S "Total Score") (.q 0)).1 = .q 0 := by
      simp [Dict.popD, Dict.getD, hTS]
    have h2 : excl.countP
        (fun e => pvIsZero ((Dict.popD m (S "Total Score") (.q 0)).2.getD (e ++ S " Score") (.q 1))) = 0 := by
      refine List.countP_eq_zero.mpr ?_
      intro e he
      simp [Dict.popD, Dict.getD, hES e, pvIsZero]
    simp [runDecision, h1, h2, pvTruthy]

/-- Claim C7 (witness): the amended theorem applied at a concrete extraction
result. -/
theorem run_below_cutoff_witness :
    runDecision qaOutputC7 [S "QE5"] 5 = .cutoffReject :=
  (run_below_cutoff_amended qaInputC7 qaOutputC7 [S "QE5"] 5 (by decide)).2.2

/-- The lookup is numeric (or absent): the guard under which the
classification logic of `process_response` reaches its comparison without
a Python `TypeError`. -/
def numericAt (m : PyDict) (k : Str) : Bool :=
  match Dict.get? m k with
  | some (.s _) => false
  | _ => true

/-- The exclusion trigger of claim C1, on the input map: the entry
`<id>_SCORE` exists and equals exactly `0`. -/
def trig (m : PyDict) (e : Str) : Bool :=
  pvIsZero (Dict.getD m (e ++ S "_SCORE") (.q (-1)))

/-- The numeric `TOTAL_SCORE` value of a map (`0` when absent). -/
def totalOf (m : PyDict) : ℚ :=
  match Dict.get? m (S "TOTAL_SCORE") with
  | some (.q x) => x
  | _ => 0

theorem find?_congr_mem {α : Type} {l : List α} {p q : α → Bool}
    (h : ∀ a ∈ l, p a = q a) : l.find? p = l.find? q := by
  induction l with
  | nil => rfl
  | cons a t ih =>
    rw [List.find?_cons, List.find?_cons, h a (List.mem_cons_self _ _)]
    cases q a with
    | true => rfl
    | false => exact ih (fun x hx => h x (List.mem_cons_of_mem _ hx))

/-- Claim C1 (amended): for every map whose `TOTAL_SCORE` entry (if any) is
numeric and every excluding list not containing the literal id `TOTAL`,
the classification of `process_response` first rejects on an excluding
question whose `<id>_SCORE` entry equals exactly `0` (naming a triggering
question in the reason, regardless of the total), otherwise rejects
exactly when `TOTAL_SCORE < cutoff`; an absent `<id>_SCORE` entry never
triggers the exclusion. -/
theorem classify_rule_amended (m : PyDict) (cutoff : ℚ) (excl : List Str)
    (hT : numericAt m (S "TOTAL_SCORE") = true)
    (hE : ¬ (S "TOTAL") ∈ excl) :
    ((∃ e ∈ excl, trig m e = true) →
       (classify m cutoff excl).1 = true ∧
       ∃ e0 ∈ excl, trig m e0 = true ∧
         (classify m cutoff excl).2 = some (Reason.zeroExcluding e0)) ∧
    ((∀ e ∈ excl, trig m e = false) →
       classify m cutoff excl =
         (if totalOf m < cutoff then (true, some Reason.belowCutoff)
          else (false, none))) ∧
    (∀ e ∈ excl, Dict.get? m (e ++ S "_SCORE") = none → trig m e = false) := by
  have key_ne : ∀ e ∈ excl, ¬ (e ++ S "_SCORE") = S "TOTAL_SCORE" := by
    intro e he heq
    have hsplit : S "TOTAL_SCORE" = S "TOTAL" ++ S "_SCORE" := by decide
    rw [hsplit] at heq
    have := (List.append_inj' heq rfl).1
    rw [this] at he
    exact hE he
  have hcond : ∀ e ∈ excl,
      pvIsZero (Dict.getD (Dict.popD m (S "TOTAL_SCORE") (.q 0)).2
        (e ++ S "_SCORE") (.q (-1))) = trig m e := by
    intro e he
    unfold trig
    rw [show (Dict.popD m (S "TOTAL_SCORE") (.q 0)).2 =
      Dict.eraseKey m (S "TOTAL_SCORE") from rfl]
    rw [Dict.getD, Dict.getD, Dict.get?_eraseKey_ne m _ _ (key_ne e he)]
  have hfind : excl.find?
      (fun e => pvIsZero (Dict.getD (Dict.popD m (S "TOTAL_SCORE") (.q 0)).2
        (e ++ S "_SCORE") (.q (-1)))) = excl.find? (trig m) :=
    find?_congr_mem hcond
  have hps : (Dict.popD m (S "TOTAL_SCORE") (.q 0)).1 = .q (totalOf m) := by
    rw [show (Dict.popD m (S "TOTAL_SCORE") (.q 0)).1 =
      Dict.getD m (S "TOTAL_SCORE") (.q 0) from rfl]
    unfold numericAt at hT
    unfold Dict.getD totalOf
    cases hg : Dict.get? m (S "TOTAL_SCORE") with
    | none => rfl
    | some v =>
      cases v with
      | s t => rw [hg] at hT; simp at hT
      | q x => rfl
  have hclassify : classify m cutoff excl =
      (match excl.find? (trig m) with
       | some e => (true, some (Reason.zeroExcluding e))
       | none =>
         if pvGE (.q (totalOf m)) cutoff then (false, none)
         else (true, some Reason.belowCutoff)) := by
    unfold classify
    simp only [hfind, hps]
  refine ⟨?_, ?_, ?_⟩
  · rintro ⟨e, he, htrig⟩
    have hne : ¬ excl.find? (trig m) = none := by
      intro hnone
      exact absurd htrig (by simpa using List.find?_eq_none.mp hnone e he)
    cases hf : excl.find? (trig m) with
    | none => exact absurd hf hne
    | some e0 =>
      rw [hclassify, hf]
      exact ⟨rfl, e0, List.mem_of_find?_eq_some hf, List.find?_some hf, rfl⟩
  · intro hall
    have hf : excl.find? (trig m) = none :=
      List.find?_eq_none.mpr (fun e he => by simp [hall e he])
    rw [hclassify, hf]
    rcases le_or_lt cutoff (totalOf m) with hle | hlt
    · rw [if_pos (show pvGE (.q (totalOf m)) cutoff = true by simp [pvGE, hle]),
        if_neg (not_lt.mpr hle)]
    · rw [if_neg (show ¬ pvGE (.q (totalOf m)) cutoff = true by simp [pvGE, not_le.mpr hlt]),
        if_pos hlt]
  · intro e he hget
    unfold trig Dict.getD
    rw [hget]
    decide

/-- Claim C1 (counterexample): with excluding id `TOTAL`, a map whose
`TOTAL_SCORE` entry is exactly `0` and cutoff `0`, the claim demands
rejection (the map contains the key `TOTAL_SCORE` with value exactly `0`
for the excluding id `TOTAL`), but `process_response` pops `TOTAL_SCORE`
before the exclusion check, finds the key absent, and accepts. -/
theorem classify_total_id_counterexample :
    Dict.get? [(S "TOTAL_SCORE", PyVal.q 0)] ((S "TOTAL") ++ S "_SCORE") =
      some (PyVal.q 0) ∧
    classify [(S "TOTAL_SCORE", PyVal.q 0)] 0 [S "TOTAL"] = (false, none) := by
  decide

/-- Claim C1 (witness): the amended theorem applied at a concrete map where an
excluding question scored zero. -/
theorem classify_rule_witness :
    (classify [(S "QE5_SCORE", PyVal.q 0), (S "TOTAL_SCORE", PyVal.q 7)]
      5 [S "QE5"]).1 = true :=
  ((classify_rule_amended [(S "QE5_SCORE", PyVal.q 0), (S "TOTAL_SCORE", PyVal.q 7)]
      5 [S "QE5"] (by decide) (by decide)).1 ⟨S "QE5", by decide, by decide⟩).1

/-- Claim C4 (counterexample): in the legacy unmarked tier, a captured score
text that fails float parsing (`1.2.3` matches `[0-9.]+` but is not a
valid float) raises `ValueError` to the caller. -/
theorem legacy_score_parse_raises :
    get_quality_assessment_text (S "QE1: t QE1_SCORE: 1.2.3") =
      .error "ValueError: could not convert string to float" := by decide

/-- Claim C4 (amended): in the marked-block tiers a score text that fails
float parsing never propagates an exception (the marked path always
returns a map), a failing tier-1 item is a no-op on the accumulated map
and total (the fold equals the fold over the parseable items only), and
a failing tier-2 item leaves the accumulator unchanged; in the legacy
unmarked tier, however, a captured score text that fails float parsing
raises `ValueError` to the caller. -/
theorem score_parse_failure_amended :
    (∀ s : Str, (extractBlock qaStartMarker qaEndMarker s).isSome = true →
       ∃ m, get_quality_assessment_text s = .ok m) ∧
    (∀ ms : List (Str × Str × Str),
       ms.foldl tier1Step ([], 0) =
         (ms.filter (fun m => (pyFloat m.2.2).isSome)).foldl tier1Step ([], 0)) ∧
    (∀ (content : Str) (ids : List Str) (acc : QaDict × ℚ) (id : Str),
       tier2Item content ids id = none → tier2Step content ids acc id = acc) ∧
    (∃ s : Str, get_quality_assessment_text s =
       .error "ValueError: could not convert string to float") := by
  refine ⟨?_, ?_, ?_, ?_⟩
  · intro s h
    unfold get_quality_assessment_text
    cases heb : extractBlock qaStartMarker qaEndMarker s with
    | none => rw [heb] at h; simp at h
    | some block => exact ⟨markedQa (pyStrip block), rfl⟩
  · intro ms
    exact tier1_fold_filter ms ([], 0)
  · intro content ids acc id h
    unfold tier2Step
    rw [h]
  · exact ⟨S "QE2: u QE2_SCORE: 2.2.2", by decide⟩

/-- Claim C4 (witness): the amended theorem applied at concrete inputs. -/
theorem score_parse_failure_witness :
    ∃ m, get_quality_assessment_text qaInputC5 = .ok m :=
  score_parse_failure_amended.1 qaInputC5 (by decide)

/-- A comprehension whose body succeeds on every item returns a list. -/
theorem mapExcept_ok {α β : Type} (f : α → Except String β) (l : List α)
    (h : ∀ a ∈ l, ∃ b, f a = .ok b) : ∃ bs, mapExcept f l = .ok bs := by
  induction l with
  | nil => exact ⟨[], rfl⟩
  | cons a t ih =>
    obtain ⟨b, hb⟩ := h a (List.mem_cons_self a t)
    obtain ⟨bs, hbs⟩ := ih (fun x hx => h x (List.mem_cons_of_mem a hx))
    exact ⟨b :: bs, by unfold mapExcept; rw [hb, hbs]⟩

/-- Claim C6 (counterexample): the loaders do raise to the caller — a
missing configuration file raises `FileNotFoundError` from every loader
(the `except yaml.YAMLError` clause of `load_yaml_file` does not catch
it); `get_cutoff_score` raises `AttributeError` on an unparseable
document (`None.get`); and even a readable, parseable file can make the
field getters raise: an entry lacking the `id` key raises `KeyError`
from the line-38 comprehension, a non-iterable section value and a
non-mapping field entry raise `TypeError`, and a string document
containing the section name passes the substring membership test and
raises `TypeError` when subscripted. -/
theorem config_missing_file_counterexample :
    get_all_quality_assessment_fields .missing = .error "FileNotFoundError" ∧
    get_all_data_extraction_fields .missing = .error "FileNotFoundError" ∧
    get_all_excluding_questions .missing = .error "FileNotFoundError" ∧
    get_cutoff_score .missing = .error "FileNotFoundError" ∧
    get_cutoff_score .badYaml = .error "AttributeError" ∧
    get_all_quality_assessment_fields
      (.parsed (.map [(S "quality_assessment_questions", .list [.map []])])) =
      .error "KeyError" ∧
    get_all_quality_assessment_fields
      (.parsed (.map [(S "quality_assessment_questions", .num 3)])) =
      .error "TypeError" ∧
    get_all_quality_assessment_fields
      (.parsed (.str (S "quality_assessment_questions"))) =
      .error "TypeError" ∧
    get_all_data_extraction_fields
      (.parsed (.map [(S "data_extraction_fields", .list [.str (S "x")])])) =
      .error "TypeError" := by
  exact ⟨rfl, rfl, rfl, rfl, rfl, rfl, rfl, rfl, rfl⟩

/-- Claim C6 (amended): the list loaders degrade to an empty result
without raising when the document is falsy (an unparseable or empty file
loads as `None`) or is a mapping lacking the section, and a present
section whose entries all carry the required keys loads successfully;
`get_cutoff_score` on a mapping returns the configured value or the
default `0`, and the raw excluding-questions section of a mapping is
returned without raising whatever its shape.  But: a missing file raises
`FileNotFoundError` from every loader; `get_cutoff_score` raises
`AttributeError` on every non-mapping document (including the `None` of
an unparseable file); a truthy non-container document raises `TypeError`
at the membership test; a truthy string document that contains the
section name as a substring raises `TypeError` at the subscript; and the
field getters propagate the first exception of the line-38 comprehension
(`KeyError`/`TypeError` on malformed entries). -/
theorem config_degrade_amended :
    (∀ v : YVal, yTruthy v = false →
       get_all_quality_assessment_fields (.parsed v) = .ok [] ∧
       get_all_data_extraction_fields (.parsed v) = .ok [] ∧
       get_all_excluding_questions (.parsed v) = .ok (.list [])) ∧
    (get_all_quality_assessment_fields .badYaml = .ok [] ∧
     get_all_data_extraction_fields .badYaml = .ok [] ∧
     get_all_excluding_questions .badYaml = .ok (.list [])) ∧
    (∀ m : Dict YVal, Dict.get? m (S "quality_assessment_questions") = none →
       get_all_quality_assessment_fields (.parsed (.map m)) = .ok []) ∧
    (∀ m : Dict YVal, Dict.get? m (S "data_extraction_fields") = none →
       get_all_data_extraction_fields (.parsed (.map m)) = .ok []) ∧
    (∀ (m : Dict YVal) (items : List YVal),
       Dict.get? m (S "quality_assessment_questions") = some (.list items) →
       (∀ q ∈ items, ∃ e, qaEntryOf q = .ok e) →
       ∃ l, get_all_quality_assessment_fields (.parsed (.map m)) = .ok l) ∧
    (∀ (m : Dict YVal) (v : YVal),
       Dict.get? m (S "excluding_questions") = some v →
       get_all_excluding_questions (.parsed (.map m)) = .ok v) ∧
    (∀ m : Dict YVal, get_cutoff_score (.parsed (.map m)) =
       .ok (Dict.getD m (S "cutoff_score") (.num 0))) ∧
    (get_all_quality_assessment_fields .missing = .error "FileNotFoundError" ∧
     get_all_data_extraction_fields .missing = .error "FileNotFoundError" ∧
     get_all_excluding_questions .missing = .error "FileNotFoundError" ∧
     get_cutoff_score .missing = .error "FileNotFoundError") ∧
    (∀ v : YVal, YVal.isMap v = false →
       get_cutoff_score (.parsed v) = .error "AttributeError") ∧
    (get_cutoff_score .badYaml = .error "AttributeError") ∧
    (∀ q : ℚ, ¬ q = 0 →
       get_all_quality_assessment_fields (.parsed (.num q)) = .error "TypeError") ∧
    (∀ s : Str, yTruthy (.str s) = true →
       containsSub s (S "quality_assessment_questions") = true →
       get_all_quality_assessment_fields (.parsed (.str s)) = .error "TypeError") ∧
    (∀ (m : Dict YVal) (items : List YVal) (q : YVal) (e : String),
       Dict.get? m (S "quality_assessment_questions") = some (.list (q :: items)) →
       qaEntryOf q = .error e →
       get_all_quality_assessment_fields (.parsed (.map m)) = .error e) := by
  refine ⟨?_, ⟨rfl, rfl, rfl⟩, ?_, ?_, ?_, ?_, ?_, ⟨rfl, rfl, rfl, rfl⟩, ?_, rfl, ?_, ?_, ?_⟩
  · intro v hv
    refine ⟨?_, ?_, ?_⟩
    · simp [get_all_quality_assessment_fields, load_yaml_file, hv]
    · simp [get_all_data_extraction_fields, load_yaml_file, hv]
    · simp [get_all_excluding_questions, load_yaml_file, hv]
  · intro m hm
    cases m with
    | nil => rfl
    | cons a t =>
      simp [get_all_quality_assessment_fields, load_yaml_file, yTruthy, yContains, hm]
  · intro m hm
    cases m with
    | nil => rfl
    | cons a t =>
      simp [get_all_data_extraction_fields, load_yaml_file, yTruthy, yContains, hm]
  · intro m items hm hall
    obtain ⟨bs, hbs⟩ := mapExcept_ok qaEntryOf items hall
    refine ⟨bs, ?_⟩
    cases m with
    | nil => exact absurd hm (by simp [Dict.get?])
    | cons a t =>
      simp [get_all_quality_assessment_fields, load_yaml_file, yTruthy, yContains,
        ySubscript, yIter, hm, hbs]
  · intro m v hm
    cases m with
    | nil => exact absurd hm (by simp [Dict.get?])
    | cons a t =>
      simp [get_all_excluding_questions, load_yaml_file, yTruthy, yContains, ySubscript, hm]
  · intro m
    rfl
  · intro v hv
    cases v with
    | map m => simp [YVal.isMap] at hv
    | null => rfl
    | b x => rfl
    | num x => rfl
    | str s => rfl
    | list l => rfl
  · intro q hq
    simp [get_all_quality_assessment_fields, load_yaml_file, yTruthy, yContains, hq]
  · intro s ht hc
    simp [get_all_quality_assessment_fields, load_yaml_file, yContains, ySubscript, ht, hc]
  · intro m items q e hm hq
    cases m with
    | nil => exact absurd hm (by simp [Dict.get?])
    | cons a t =>
      simp [get_all_quality_assessment_fields, load_yaml_file, yTruthy, yContains,
        ySubscript, yIter, mapExcept, hm, hq]

/-- Claim C6 (witness): the amended theorem applied at a concrete file
whose quality-assessment section is present and well formed. -/
theorem config_degrade_witness :
    ∃ l, get_all_quality_assessment_fields
      (.parsed (.map [(S "quality_assessment_questions",
        .list [.map [(S "id", .str (S "QE1")),
                     (S "question", .str (S "Is it good?")),
                     (S "scores", .list [.num 0, .num 1])]])])) = .ok l :=
  config_degrade_amended.2.2.2.2.1 _ _ rfl
    (by
      intro q hq
      rw [List.mem_singleton] at hq
      subst hq
      exact ⟨_, rfl⟩)

/-- Input of the claim C8 counterexample: a trailing key with no value. -/
def deInputC8 : Str :=
  S "==DATA_EXTRACTION_START==AUTHOR: x YEAR:==DATA_EXTRACTION_END=="

/-- Claim C8 (counterexample): the tier-1 field scan stores the trailing
`YEAR:` field with an empty captured value, so the returned map (which is
not empty, hence not the total-failure case) contains an entry whose
value is the empty string after trimming. -/
theorem de_empty_value_counterexample :
    get_data_extraction_text deInputC8 =
      [(S "AUTHOR", .s (S "x")), (S "YEAR", .s [])] ∧
    (S "YEAR", PyVal.s []) ∈ get_data_extraction_text deInputC8 ∧
    ¬ get_data_extraction_text deInputC8 = ([] : PyDict) := by decide

/-- Claim C8 (amended): every path of the data-extraction engine stores each
captured field's `strip`ped value unconditionally — so every string value
of the returned map equals its own `strip`, but it may be the empty
string (an empty capture is stored, not dropped). -/
theorem de_values_trimmed_amended (s : Str) (k t : Str)
    (h : (k, PyVal.s t) ∈ get_data_extraction_text s) : pyStrip t = t :=
  de_valTrim s _ h t rfl

/-- Claim C8 (witness): the amended theorem applied at a concrete entry. -/
theorem de_values_trimmed_witness : pyStrip (S "x") = S "x" :=
  de_values_trimmed_amended deInputC8 (S "AUTHOR") (S "x") (by decide)

/-- Input of the claim C9 counterexample. -/
def qaInputC9 : Str :=
  S "==QUALITY_ASSESSMENT_START==QE1:d\nQE1_SCORE:-1.0\nj k==QUALITY_ASSESSMENT_END=="

/-- The stripped block content of `qaInputC9`. -/
def c9Content : Str := S "QE1:d\nQE1_SCORE:-1.0\nj k"

/-- Modelled from the spec: "Score text is read from immediately after
`_SCORE:` up to the next whitespace character (or end of block)" — the
claimed tier-2 score text, for comparison with the implemented
`tier2ScoreText`. -/
def scoreTextSpec (content : Str) (start : Nat) : Str :=
  (content.drop start).takeWhile (fun c => ! isWs c)

/-- Claim C9 (counterexample): in the tier-2 positional fallback the code reads
the score text up to the next literal space `' '`, not up to the next
whitespace character.  On this block the claimed reading gives `-1.0`
(which parses, so the claim keeps the item), while the code reads
`-1.0\nj` (which fails float parsing), and the item is omitted from the
returned map. -/
theorem tier2_score_text_counterexample :
    findSub c9Content (S "QE1_SCORE:") = some 6 ∧
    tier2ScoreText c9Content 16 = S "-1.0\nj" ∧
    scoreTextSpec c9Content 16 = S "-1.0" ∧
    ¬ tier2ScoreText c9Content 16 = scoreTextSpec c9Content 16 ∧
    pyFloat (scoreTextSpec c9Content 16) = some (-1) ∧
    get_quality_assessment_text qaInputC9 =
      .ok [(S "TOTAL_SCORE", .q 0), (S "TOTAL_SCORE_SCORE", .s [])] := by decide

/-- Claim C9 (amended): the tier-2 score text equals the substring from
immediately after the `_SCORE:` marker up to the next literal space
character `' '` (or the end of the block if no space follows), then
`strip`ped of surrounding whitespace; an item whose score text fails
numeric parsing leaves the accumulator unchanged (only that item is
omitted). -/
theorem tier2_score_text_amended :
    (∀ (content : Str) (start : Nat),
       tier2ScoreText content start = scoreTextAmended content start) ∧
    (∀ (content : Str) (ids : List Str) (acc : QaDict × ℚ) (id : Str),
       tier2Item content ids id = none → tier2Step content ids acc id = acc) := by
  refine ⟨tier2ScoreText_eq, ?_⟩
  intro content ids acc id h
  unfold tier2Step
  rw [h]

/-- Claim C9 (witness): the amended theorem applied at concrete inputs. -/
theorem tier2_score_text_witness :
    tier2ScoreText c9Content 16 = scoreTextAmended c9Content 16 ∧
    tier2Step c9Content [] ([], 0) (S "QE9") = ([], 0) :=
  ⟨tier2_score_text_amended.1 c9Content 16,
   tier2_score_text_amended.2 c9Content [] ([], 0) (S "QE9") (by decide)⟩

/-- The fixed example block that `get_analysis_prompt` always renders
between the data-extraction markers (lines 99-103 of
`review_data_parser.py`). -/
def deFixedBlock : Str :=
  S "==DATA_EXTRACTION_START==\nAUTHOR: [author names]\nYEAR: [publication year]\nTITLE: [paper title]\n==DATA_EXTRACTION_END==\n\n"

/-- Declared lists used by the claim C10 counterexample and witness. -/
def qaSpec1 : List QaQuestion := [⟨S "QE1", S "q", [S "1"]⟩]

def deSpec1 : List DeField := [⟨S "FOO", S "d"⟩]

set_option maxRecDepth 100000 in
/-- Claim C10 (counterexample): with the declared extraction field `FOO`, the
claim demands an example line `FOO: [value]` inside the data-extraction
block of the prompt, but the prompt contains no occurrence of `FOO: [` at
all (the block's example lines are hard-coded). -/
theorem prompt_missing_field_counterexample :
    (S "FOO") ∈ deSpec1.map DeField.key ∧
    ¬ deSpec1.isEmpty = true ∧
    containsSub (get_analysis_prompt qaSpec1 deSpec1 (S "5")) (S "FOO: [") = false := by
  decide

/-- Claim C10 (amended): for every specification with non-empty quality and
extraction field lists, the block between `==DATA_EXTRACTION_START==` and
`==DATA_EXTRACTION_END==` of the built prompt consists of the three fixed
example lines `AUTHOR: [author names]`, `YEAR: [publication year]`,
`TITLE: [paper title]` regardless of the declared extraction fields (the
declared fields are rendered as `* KEY: description` lines in the
PART 2 section instead). -/
theorem prompt_fixed_de_block_amended (qa : List QaQuestion) (de : List DeField) (ct : Str)
    (hqa : ¬ qa.isEmpty = true) (hde : ¬ de.isEmpty = true) :
    ∃ pre post, get_analysis_prompt qa de ct = pre ++ deFixedBlock ++ post := by
  have hcond : ¬ (qa.isEmpty || de.isEmpty) = true := by
    cases hq : qa.isEmpty with
    | true => exact absurd hq hqa
    | false =>
      cases hd : de.isEmpty with
      | true => exact absurd hd hde
      | false => simp
  refine ⟨S "Hello, I need you to analyze the PDF document I've uploaded. Please follow these instructions precisely:\n\n"
    ++ S "===== PART 1: QUALITY ASSESSMENT =====\n"
    ++ (qa.foldl (fun acc q =>
          acc ++ S "* " ++ q.id ++ S ": " ++ q.question ++ S " (Possible scores: "
            ++ joinComma q.scores ++ S ")\n") [])
    ++ S "\n===== PART 2: DATA EXTRACTION =====\n"
    ++ (de.foldl (fun acc d =>
          acc ++ S "* " ++ d.key ++ S ": " ++ d.description ++ S "\n") [])
    ++ S "\nMinimum acceptance score: " ++ ct ++ S "\n\n"
    ++ S "===== OUTPUT FORMAT INSTRUCTIONS =====\n"
    ++ S "For Quality Assessment, follow this exact format with no deviations:\n\n"
    ++ S "==QUALITY_ASSESSMENT_START==\n"
    ++ S "QE1: [Your brief description here]\n"
    ++ S "QE1_SCORE: [score]\n\n"
    ++ S "QE2: [Your brief description here]\n"
    ++ S "QE2_SCORE: [score]\n"
    ++ S "==QUALITY_ASSESSMENT_END==\n\n"
    ++ S "For Data Extraction, follow this exact format with no deviations:\n\n",
    S "IMPORTANT INSTRUCTIONS:\n"
    ++ S "1. Use EXACTLY the section markers shown above (==SECTION_START== and ==SECTION_END==)\n"
    ++ S "2. For quality assessment items, use the exact format 'QE1: [text]' followed by a line break and 'QE1_SCORE: [number]'\n"
    ++ S "3. For data extraction fields, use the exact keys I've listed, in ALL CAPS followed by a colon\n"
    ++ S "4. If information is not available, write 'Not Specified (N/S)'\n"
    ++ S "5. Do not add any additional formatting, bullets, or markdown\n"
    ++ S "6. Each item should be on its own line\n"
    ++ S "7. You should respect the line breaks here and replicate them if they exist\n", ?_⟩
  unfold get_analysis_prompt
  rw [if_neg hcond]
  rw [show deFixedBlock = S "==DATA_EXTRACTION_START==\n" ++ (S "AUTHOR: [author names]\n"
    ++ (S "YEAR: [publication year]\n" ++ (S "TITLE: [paper title]\n"
    ++ S "==DATA_EXTRACTION_END==\n\n"))) by decide]
  simp only [List.append_assoc]

/-- Claim C10 (witness): the amended theorem applied at concrete field lists. -/
theorem prompt_fixed_de_block_witness :
    ∃ pre post, get_analysis_prompt qaSpec1 deSpec1 (S "5") = pre ++ deFixedBlock ++ post :=
  prompt_fixed_de_block_amended qaSpec1 deSpec1 (S "5") (by decide) (by decide)
